import Mathlib

/-!
Shallow embedding of the Vaiz MCP proxy server core (`src/proxy-server.ts`).

The proxy forwards newline-delimited JSON-RPC between a local stdio peer and a
remote HTTP MCP endpoint.  We embed the transport-and-resilience engine:

* `ProxyState` mirrors the mutable fields of `VaizMCPProxyServer`
  (`sessionId`, `initialized`, `lastInitParams`, `responseCache`,
  `apiHealthy`, `healthCheckTimer`; the timer handle becomes a count of
  active interval timers so "at most one prober" is a provable invariant).
* Each upstream `fetch` of the per-request attempt loop is driven by an
  `Outcome` taken from a script `Nat → Outcome` (one entry per attempt);
  `reinitializeSession`'s own fetches are driven by a `ReinitOutcome`.
* Effects are recorded in an event trace `List Ev`: upstream POSTs with the
  headers computed at send time, downstream writes, and backoff sleeps.
* The SSE reader is embedded at the level the source works at: a list of
  UTF-8 chunks, a carry buffer, splitting on the newline character.  JSON
  payload parsing (`JSON.parse`) is a parameter `parse`; the proxy never
  inspects payloads beyond the fields modelled in `JsonRpcMsg`.

Modelling boundaries (stated once here): `response.json()` on the main
request path is modelled as always yielding a value (a rejecting body
promise is representable on the re-init path via `jsonThrows`), and wall
clock / timer interleavings are not modelled — the prober tick is an atomic
action enabled while its timer is active, matching the source's
single-threaded event loop at operation granularity.
-/

/-- JSON-RPC message id: a string or a number. -/
inductive RpcId where
  | str (s : String)
  | num (n : Int)
deriving DecidableEq, Repr

/-- JSON-RPC error object, as synthesized or forwarded by the proxy. -/
structure RpcError where
  code : Int
  message : String
deriving DecidableEq, Repr

/-- A JSON `result` payload, abstracted to what the proxy inspects: the only
result value the proxy itself constructs is the empty tools object
`\x7btools:[]\x7d`; all other payloads are tracked by a tag together with their
JS truthiness (the source tests `result.result`, which is `false` for a
present-but-falsy value such as `null`, `false`, `0` or the empty string). -/
inductive ResultVal where
  | emptyTools
  | falsyVal (tag : Nat)
  | truthyVal (tag : Nat)
deriving DecidableEq, Repr

/-- JS truthiness of a result value. -/
def ResultVal.isTruthy : ResultVal → Bool
  | .emptyTools => true
  | .falsyVal _ => false
  | .truthyVal _ => true

/-- JS truthiness of the optional `result` field (`obj.result` coerced to bool). -/
def truthyResult : Option ResultVal → Bool
  | none => false
  | some v => v.isTruthy

/-- A JSON value carried on the wire, restricted to the fields the proxy reads;
`tag` separates otherwise-identical payloads.  Absent fields are `none`,
mirroring JS property absence. -/
structure JsonRpcMsg where
  id? : Option RpcId := none
  method? : Option String := none
  result : Option ResultVal := none
  error : Option RpcError := none
  tag : Nat := 0
deriving DecidableEq, Repr

/-- A thrown JS value as classified by `isTransientError`: whether it is a
`TypeError`, whether it is an `Error` at all, and its message text. -/
structure ErrVal where
  isTypeError : Bool := false
  isError : Bool := true
  message : String := ""
deriving DecidableEq, Repr

def MAX_RETRIES : Nat := 3
def RETRY_DELAY_MS : Nat := 1000
def HEALTH_CHECK_INTERVAL_MS : Nat := 5000

/-- `response.ok`: HTTP status in the 200–299 range. -/
def httpOk (status : Nat) : Bool := 200 ≤ status && status < 300

/-- `isRetryableStatus`: 5xx or 429. -/
def isRetryableStatus (status : Nat) : Bool := 500 ≤ status || status == 429

/-- ASCII lower-casing of one character (`String.prototype.toLowerCase` on the
ASCII range, which is all the keywords probe for). -/
def lowerCh (c : Char) : Char :=
  if 'A' ≤ c && c ≤ 'Z' then Char.ofNat (c.toNat + 32) else c

/-- `String.prototype.includes`: does `needle` occur as a contiguous substring? -/
def containsSub (needle : List Char) : List Char → Bool
  | [] => needle.isEmpty
  | c :: rest => needle.isPrefixOf (c :: rest) || containsSub needle rest

/-- The transient-error keywords of `isTransientError`. -/
def transientKeys : List String :=
  ["fetch", "network", "econnrefused", "econnreset", "etimedout", "socket", "abort"]

/-- `isTransientError`: any `TypeError`; otherwise an `Error` whose lower-cased
message contains one of the transient keywords; non-`Error` throws are not
transient. -/
def isTransientError (e : ErrVal) : Bool :=
  if e.isTypeError then true
  else if e.isError then
    transientKeys.any fun k => containsSub k.toList (e.message.toList.map lowerCh)
  else false

/-- `getHeaders`: the headers of every upstream POST, computed from the
credential, the optional space id and the current session id. -/
def getHeaders (apiKey : String) (spaceId sessionId : Option String) :
    List (String × String) :=
  [("Authorization", "Bearer " ++ apiKey)]
    ++ (match spaceId with | some s => [("Current-Space-Id", s)] | none => [])
    ++ [("Content-Type", "application/json"),
        ("Accept", "application/json, text/event-stream")]
    ++ (match sessionId with | some s => [("Mcp-Session-Id", s)] | none => [])

/-- First-match lookup in a header list. -/
def lookupH : List (String × String) → String → Option String
  | [], _ => none
  | (k, v) :: rest, key => if k = key then some v else lookupH rest key

/-- `Map.prototype.set`: overwrite in place, else append. -/
def mapSet : List (String × JsonRpcMsg) → String → JsonRpcMsg →
    List (String × JsonRpcMsg)
  | [], k, v => [(k, v)]
  | (k', v') :: rest, k, v =>
      if k' = k then (k, v) :: rest else (k', v') :: mapSet rest k v

/-- `Map.prototype.get`. -/
def mapGet : List (String × JsonRpcMsg) → String → Option JsonRpcMsg
  | [], _ => none
  | (k', v) :: rest, k => if k' = k then some v else mapGet rest k

/-- The mutable fields of `VaizMCPProxyServer`.  `healthTimers` counts active
health-check interval timers (the source stores one nullable handle). -/
structure ProxyState where
  apiKey : String := ""
  spaceId : Option String := none
  sessionId : Option String := none
  initialized : Bool := false
  lastInitParams : Option Nat := none
  responseCache : List (String × JsonRpcMsg) := []
  apiHealthy : Bool := true
  healthTimers : Nat := 0
deriving DecidableEq, Repr

/-- What an upstream POST carries (beyond its headers). -/
inductive PostKind where
  | request (method : String) (id : RpcId)
  | reinitInit
  | notifInitialized
  | forwardNotif (method : String)
deriving DecidableEq, Repr

/-- Observable effects: upstream POSTs (with the headers computed at send
time), downstream stdout writes, and backoff sleeps. -/
inductive Ev where
  | post (headers : List (String × String)) (kind : PostKind)
  | down (msg : JsonRpcMsg)
  | sleep (ms : Nat)
deriving DecidableEq, Repr

/-- The `notifications/tools/list_changed` object sent by `notifyToolsChanged`. -/
def ntcMsg : JsonRpcMsg := { method? := some "notifications/tools/list_changed" }

/-- A proxy-synthesized error response with code `-32000`. -/
def errResp (id : RpcId) (message : String) : JsonRpcMsg :=
  { id? := some id, error := some { code := -32000, message := message } }

/-- `startHealthCheck`: a no-op while a timer is active, else start one. -/
def startHealthCheck (st : ProxyState) : ProxyState :=
  if st.healthTimers ≠ 0 then st else { st with healthTimers := st.healthTimers + 1 }

/-- `stopHealthCheck`: clear the interval timer if one is active. -/
def stopHealthCheck (st : ProxyState) : ProxyState :=
  if st.healthTimers ≠ 0 then { st with healthTimers := 0 } else st

/-- `markApiDown`: a no-op when already down; otherwise clear health and the
session and start the background health check. -/
def markApiDown (st : ProxyState) : ProxyState :=
  if st.apiHealthy = false then st
  else startHealthCheck { st with apiHealthy := false, sessionId := none }

/-- The upstream's behaviour on one `reinitializeSession` call: whether the
`initialize` fetch throws, its HTTP status, its `Mcp-Session-Id` header,
whether `response.json()` rejects, and the parsed body. -/
structure ReinitOutcome where
  fetchThrows : Bool := false
  status : Nat := 200
  sessionHeader : Option String := none
  jsonThrows : Bool := false
  body : JsonRpcMsg := {}
deriving DecidableEq, Repr

/-- How a `reinitializeSession` call ended: it threw, or returned a boolean. -/
inductive ReinitRes where
  | threw
  | returned (ok : Bool)
deriving DecidableEq, Repr

/-- `reinitializeSession`: clear `sessionId` and `initialized`; POST a
synthetic `initialize`; on HTTP ok capture the session header, cache the body
under `initialize` when its result is truthy, fire-and-forget a
`notifications/initialized` POST, set `initialized` and return `true`. -/
def reinitializeSession (st : ProxyState) (o : ReinitOutcome) :
    ProxyState × List Ev × ReinitRes :=
  let st1 : ProxyState := { st with sessionId := none, initialized := false }
  let postEv := Ev.post (getHeaders st1.apiKey st1.spaceId st1.sessionId) .reinitInit
  if o.fetchThrows then (st1, [postEv], .threw)
  else if httpOk o.status = false then (st1, [postEv], .returned false)
  else
    let st2 : ProxyState :=
      match o.sessionHeader with
      | some sid => { st1 with sessionId := some sid }
      | none => st1
    if o.jsonThrows then (st2, [postEv], .threw)
    else
      let st3 : ProxyState :=
        if truthyResult o.body.result then
          { st2 with responseCache := mapSet st2.responseCache "initialize" o.body }
        else st2
      let post2 := Ev.post (getHeaders st3.apiKey st3.spaceId st3.sessionId) .notifInitialized
      ({ st3 with initialized := true }, [postEv, post2], .returned true)

/-- One tick of the health-check interval: try a re-mint; on success set
healthy, stop the prober and notify the local peer; failures are silent. -/
def proberTick (st : ProxyState) (o : ReinitOutcome) : ProxyState × List Ev :=
  let ri := reinitializeSession st o
  match ri.2.2 with
  | .returned true =>
      (stopHealthCheck { ri.1 with apiHealthy := true }, ri.2.1 ++ [Ev.down ntcMsg])
  | _ => (ri.1, ri.2.1)

def dataPrefix : List Char := "data: ".toList
def doneLit : List Char := "[DONE]".toList

/-- Whitespace as stripped by `String.prototype.trim` (ASCII range). -/
def isSpaceCh (c : Char) : Bool :=
  c == ' ' || c == '\t' || c == '\n' || c == '\r' || c == '\x0b' || c == '\x0c'

/-- `String.prototype.trim`: strip whitespace from both ends. -/
def trimChars (l : List Char) : List Char :=
  ((l.dropWhile isSpaceCh).reverse.dropWhile isSpaceCh).reverse

/-- `String.prototype.split` on the newline character: always non-empty, and
the final element is the text after the last newline. -/
def splitOnNl : List Char → List (List Char)
  | [] => [[]]
  | c :: rest =>
      if c = '\n' then [] :: splitOnNl rest
      else
        match splitOnNl rest with
        | [] => [[c]]
        | l :: ls => (c :: l) :: ls

/-- Accumulator of the SSE reader: proxy state (for cache updates), emitted
events, the `responseSent` flag, and the carry buffer across chunks. -/
structure SSEAcc where
  st : ProxyState
  evs : List Ev
  sent : Bool
  buf : List Char

/-- One complete line of the SSE stream, as handled by `handleSSEResponse`:
on a `data: ` line, trim the payload; skip empty payloads and `[DONE]`;
forward every payload that parses; on a forwarded object whose `id` equals the
request id, record `responseSent` and cache it for `tools/list`/`initialize`
when its result is truthy. -/
def processSSELine (parse : List Char → Option JsonRpcMsg) (reqId : RpcId)
    (method : String) (acc : SSEAcc) (line : List Char) : SSEAcc :=
  if dataPrefix.isPrefixOf line then
    let data := trimChars (line.drop 6)
    if data ≠ [] ∧ data ≠ doneLit then
      match parse data with
      | some parsed =>
          let acc1 : SSEAcc := { acc with evs := acc.evs ++ [Ev.down parsed] }
          if parsed.id? = some reqId then
            let st1 :=
              if (method = "tools/list" ∨ method = "initialize") ∧
                  truthyResult parsed.result then
                { acc1.st with responseCache := mapSet acc1.st.responseCache method parsed }
              else acc1.st
            { acc1 with st := st1, sent := true }
          else acc1
      | none => acc
    else acc
  else acc

/-- One decoded chunk: append to the carry buffer, split on newlines, keep the
trailing segment as the new buffer and process the complete lines. -/
def processSSEChunk (parse : List Char → Option JsonRpcMsg) (reqId : RpcId)
    (method : String) (acc : SSEAcc) (chunk : List Char) : SSEAcc :=
  let segs := splitOnNl (acc.buf ++ chunk)
  (segs.dropLast).foldl (processSSELine parse reqId method)
    { acc with buf := segs.getLastD [] }

/-- `handleSSEResponse`: a missing body yields an immediate error; otherwise
drain the chunks through the carry buffer and, when no forwarded object
matched the request id, emit the `-32000` stream error. -/
def handleSSE (parse : List Char → Option JsonRpcMsg) (st : ProxyState)
    (body : Option (List (List Char))) (reqId : RpcId) (method : String) :
    ProxyState × List Ev :=
  match body with
  | none => (st, [Ev.down (errResp reqId "No response body available")])
  | some chunks =>
      let acc := chunks.foldl (processSSEChunk parse reqId method)
        { st := st, evs := [], sent := false, buf := [] }
      if acc.sent then (acc.st, acc.evs)
      else (acc.st, acc.evs ++
        [Ev.down (errResp reqId "No valid response received from SSE stream")])

/-- The upstream's behaviour on one attempt's `fetch` that returned: HTTP
status and status text, optional `Mcp-Session-Id` header, content type, the
parsed JSON body (non-SSE case), the SSE body (`none` models a null
`response.body`), and the behaviour of any nested re-init. -/
structure HttpOutcome where
  status : Nat := 200
  statusText : String := ""
  sessionHeader : Option String := none
  contentType : String := "application/json"
  body : JsonRpcMsg := {}
  sseBody : Option (List (List Char)) := none
  reinit : ReinitOutcome := {}
deriving DecidableEq, Repr

/-- The upstream's behaviour on one attempt: the fetch threw, or returned. -/
inductive Outcome where
  | thrown (e : ErrVal)
  | http (o : HttpOutcome)
deriving DecidableEq, Repr

/-- An inbound JSON-RPC request (`params` is tracked by tag only; the proxy
never inspects it beyond storing it for re-init). -/
structure Request where
  id : RpcId
  method : String
  params : Option Nat := none
deriving DecidableEq, Repr

/-- Capture of the `Mcp-Session-Id` response header (done on every response,
ok or not). -/
def sessionCapture (st : ProxyState) (o : HttpOutcome) : ProxyState :=
  match o.sessionHeader with
  | some sid => { st with sessionId := some sid }
  | none => st

/-- The recovery block of the success path: if the API was down, mark it
healthy, stop the prober and — unless the request is itself `tools/list` —
notify the local peer that the tool list changed. -/
def markRecovered (st : ProxyState) (method : String) : ProxyState × List Ev :=
  if st.apiHealthy = false then
    let st1 := stopHealthCheck { st with apiHealthy := true }
    if method ≠ "tools/list" then (st1, [Ev.down ntcMsg]) else (st1, [])
  else (st, [])

/-- `contentType.includes('text/event-stream')`. -/
def isSSEContentType (ct : String) : Bool :=
  containsSub "text/event-stream".toList ct.toList

/-- Delivery of a successful response: SSE streams go through the SSE reader;
otherwise cache the body for `initialize`/`tools/list` when its result is
truthy and forward it verbatim. -/
def deliver (parse : List Char → Option JsonRpcMsg) (st : ProxyState)
    (req : Request) (o : HttpOutcome) : ProxyState × List Ev :=
  if isSSEContentType o.contentType then
    handleSSE parse st o.sseBody req.id req.method
  else
    let st1 :=
      if (req.method = "initialize" ∨ req.method = "tools/list") ∧
          truthyResult o.body.result then
        { st with responseCache := mapSet st.responseCache req.method o.body }
      else st
    (st1, [Ev.down o.body])

/-- How the attempt loop ended: a terminal response was already emitted, or
all attempts failed with a last error. -/
inductive LoopResult where
  | sent
  | exhausted (lastError : Option String)
deriving DecidableEq, Repr

/-- The attempt loop of `proxyRequest`.  `fuel` is the number of remaining
iterations (the top-level call uses `MAX_RETRIES + 1` with `attempt = 0`, so
`fuel = MAX_RETRIES + 1 - attempt` throughout).  Before each retry it sleeps
the exponential backoff; each attempt POSTs the request, captures any session
header, and branches exactly as the source: ok → recovery block + delivery;
retryable status with retries left → continue; 400/404 with retries left →
synchronous re-mint, continue on success, stop on failure; otherwise stop. -/
def runAttempts (parse : List Char → Option JsonRpcMsg) (req : Request)
    (script : Nat → Outcome) :
    Nat → Nat → Option String → ProxyState → ProxyState × List Ev × LoopResult
  | 0, _, lastError, st => (st, [], .exhausted lastError)
  | fuel + 1, attempt, _lastError, st =>
    let delayEvs : List Ev :=
      if 0 < attempt then [Ev.sleep (RETRY_DELAY_MS * 2 ^ (attempt - 1))] else []
    let postEv := Ev.post (getHeaders st.apiKey st.spaceId st.sessionId)
      (.request req.method req.id)
    match script attempt with
    | .thrown e =>
        let st1 :=
          if isTransientError e && st.sessionId.isSome then
            { st with sessionId := none }
          else st
        if isTransientError e = false ∨ MAX_RETRIES ≤ attempt then
          (st1, delayEvs ++ [postEv], .exhausted (some e.message))
        else
          let rec1 := runAttempts parse req script fuel (attempt + 1) (some e.message) st1
          (rec1.1, delayEvs ++ [postEv] ++ rec1.2.1, rec1.2.2)
    | .http o =>
        let st1 := sessionCapture st o
        if httpOk o.status then
          let rcv := markRecovered st1 req.method
          let del := deliver parse rcv.1 req o
          (del.1, delayEvs ++ [postEv] ++ rcv.2 ++ del.2, .sent)
        else if isRetryableStatus o.status && decide (attempt < MAX_RETRIES) then
          let rec1 := runAttempts parse req script fuel (attempt + 1)
            (some ("HTTP " ++ toString o.status)) st1
          (rec1.1, delayEvs ++ [postEv] ++ rec1.2.1, rec1.2.2)
        else if (o.status = 400 ∨ o.status = 404) ∧ attempt < MAX_RETRIES then
          let ri := reinitializeSession st1 o.reinit
          match ri.2.2 with
          | .returned true =>
              let rec1 := runAttempts parse req script fuel (attempt + 1)
                (some ("HTTP " ++ toString o.status)) ri.1
              (rec1.1, delayEvs ++ [postEv] ++ ri.2.1 ++ rec1.2.1, rec1.2.2)
          | _ =>
              (ri.1, delayEvs ++ [postEv] ++ ri.2.1,
               .exhausted (some ("HTTP " ++ toString o.status ++ ": session re-init failed")))
        else
          (st1, delayEvs ++ [postEv],
           .exhausted (some ("HTTP " ++ toString o.status ++ ": " ++ o.statusText)))

/-- The params capture at the head of `proxyRequest`: remember the params of a
local `initialize` for later re-mints. -/
def rememberInit (st : ProxyState) (req : Request) : ProxyState :=
  if req.method = "initialize" ∧ req.params.isSome then
    { st with lastInitParams := req.params }
  else st

/-- The terminal message of the retry-exhaustion path, computed against the
post-`markApiDown` state `st2`: cached (id-rewritten) or empty-tools response
for `tools/list`; cached (id-rewritten) response for `initialize` when
present; otherwise the synthesized `-32000` error. -/
def exhaustedReply (st2 : ProxyState) (req : Request) (lastError : Option String) :
    JsonRpcMsg :=
  if req.method = "tools/list" then
    match mapGet st2.responseCache "tools/list" with
    | some cached => { cached with id? := some req.id }
    | none => { id? := some req.id, result := some .emptyTools }
  else if req.method = "initialize" then
    match mapGet st2.responseCache "initialize" with
    | some cached => { cached with id? := some req.id }
    | none => errResp req.id ("API unavailable: " ++ lastError.getD "undefined")
  else errResp req.id ("API unavailable: " ++ lastError.getD "undefined")

/-- `proxyRequest`: remember `initialize` params, run the attempt loop, and on
exhaustion mark the API down and emit the substituted terminal reply. -/
def proxyRequest (parse : List Char → Option JsonRpcMsg) (st : ProxyState)
    (req : Request) (script : Nat → Outcome) : ProxyState × List Ev :=
  let la := runAttempts parse req script (MAX_RETRIES + 1) 0 none (rememberInit st req)
  match la.2.2 with
  | .sent => (la.1, la.2.1)
  | .exhausted lastError =>
      (markApiDown la.1,
       la.2.1 ++ [Ev.down (exhaustedReply (markApiDown la.1) req lastError)])

/-- `handleNotification`: flip `initialized` on `notifications/initialized`,
then forward the notification upstream fire-and-forget. -/
def handleNotification (st : ProxyState) (method : String) : ProxyState × List Ev :=
  let st1 :=
    if method = "notifications/initialized" then { st with initialized := true } else st
  (st1, [Ev.post (getHeaders st1.apiKey st1.spaceId st1.sessionId) (.forwardNotif method)])

/-- A top-level event of the proxy's lifetime: an inbound request (with the
upstream's scripted behaviour), a health-prober tick (with the upstream's
behaviour for its re-mint), or an inbound notification. -/
inductive PAction where
  | request (req : Request) (script : Nat → Outcome)
  | tick (o : ReinitOutcome)
  | notif (method : String)

/-- One top-level step.  A prober tick fires only while its timer is active. -/
def step (parse : List Char → Option JsonRpcMsg) (st : ProxyState) :
    PAction → ProxyState × List Ev
  | .request req script => proxyRequest parse st req script
  | .tick o => if st.healthTimers ≠ 0 then proberTick st o else (st, [])
  | .notif m => handleNotification st m

/-- Run a sequence of top-level actions, collecting the event trace. -/
def run (parse : List Char → Option JsonRpcMsg) :
    ProxyState → List PAction → ProxyState × List Ev
  | st, [] => (st, [])
  | st, a :: rest =>
      let s1 := step parse st a
      let s2 := run parse s1.1 rest
      (s2.1, s1.2 ++ s2.2)

/-- The state at process start. -/
def initState (apiKey : String) (spaceId : Option String) : ProxyState :=
  { apiKey := apiKey, spaceId := spaceId }

/-- A state is reachable when some action sequence from some start state
produces it. -/
def Reachable (st : ProxyState) : Prop :=
  ∃ parse apiKey spaceId acts, (run parse (initState apiKey spaceId) acts).1 = st

/-- The complete (newline-terminated) lines of an SSE stream: split the whole
concatenation on newlines and drop the trailing unterminated segment — exactly
what the chunk-carry loop of `handleSSEResponse` processes. -/
def sseLines (chunks : List (List Char)) : List (List Char) :=
  (splitOnNl chunks.flatten).dropLast

/-- The message a single SSE line contributes: on a `data: ` line whose
trimmed payload is non-empty, not `[DONE]` and parses, the parsed object. -/
def sseDataMsg (parse : List Char → Option JsonRpcMsg) (line : List Char) :
    Option JsonRpcMsg :=
  if dataPrefix.isPrefixOf line then
    let data := trimChars (line.drop 6)
    if data ≠ [] ∧ data ≠ doneLit then parse data else none
  else none

/-- The value the SSE reader leaves in the cache for the request's method:
the last forwarded object whose id equals the request id and whose result is
truthy (each such object overwrites the entry in turn), if any. -/
def sseCacheWrite (reqId : RpcId) : List JsonRpcMsg → Option JsonRpcMsg
  | [] => none
  | p :: rest =>
      match sseCacheWrite reqId rest with
      | some q => some q
      | none =>
          if decide (p.id? = some reqId) && truthyResult p.result then some p else none

/-- The backoff sleeps of an event trace. -/
def sleeps (evs : List Ev) : List Nat :=
  evs.filterMap fun e => match e with | .sleep d => some d | _ => none

/-- The number of attempts of the original request in an event trace. -/
def attemptPosts (evs : List Ev) : Nat :=
  evs.countP fun e => match e with | .post _ (.request _ _) => true | _ => false

/-- A trivial concrete payload parser for witnesses. -/
def parse0 : List Char → Option JsonRpcMsg := fun _ => none

/-- Whether one SSE line contributes a forwarded object whose `id` equals the
request id (the condition that sets `responseSent`). -/
def lineMatch (parse : List Char → Option JsonRpcMsg) (reqId : RpcId)
    (line : List Char) : Bool :=
  match sseDataMsg parse line with
  | some p => decide (p.id? = some reqId)
  | none => false

/-- The scheduled backoff delays for attempts `attempt, attempt + 1, …` over
`fuel` further loop iterations. -/
def backoffDelays : Nat → Nat → List Nat
  | _, 0 => []
  | attempt, fuel + 1 =>
      (RETRY_DELAY_MS * 2 ^ (attempt - 1)) :: backoffDelays (attempt + 1) fuel

/-- The prober-timer part of the spec's health invariant: at most one timer is
active, and an active timer implies the API is marked down. -/
def TimerInv (st : ProxyState) : Prop :=
  st.healthTimers ≤ 1 ∧ (st.healthTimers ≠ 0 → st.apiHealthy = false)

/-- The cache discipline: every entry is keyed by `initialize` or
`tools/list` and holds a response whose result is (JS-)truthy. -/
def CacheInv (st : ProxyState) : Prop :=
  ∀ kv ∈ st.responseCache,
    (kv.1 = "initialize" ∨ kv.1 = "tools/list") ∧ truthyResult kv.2.result = true

/-- One step of cache evolution: the invariant is preserved and no present
entry is ever evicted. -/
def CacheOk (st st' : ProxyState) : Prop :=
  (CacheInv st → CacheInv st') ∧
  ∀ k, (mapGet st.responseCache k).isSome → (mapGet st'.responseCache k).isSome

/-- Every upstream POST of a trace carries headers built by `getHeaders` from
the given immutable credentials and the session id current at send time. -/
def GoodPosts (apiKey : String) (spaceId : Option String) (evs : List Ev) : Prop :=
  ∀ hs k, Ev.post hs k ∈ evs → ∃ sid, hs = getHeaders apiKey spaceId sid

/-! ## Basic lemmas about the state helpers -/

theorem stopHealthCheck_eq (st : ProxyState) :
    stopHealthCheck st = { st with healthTimers := 0 } := by
  unfold stopHealthCheck
  split
  · rfl
  · rename_i h
    simp only [ne_eq, Decidable.not_not] at h
    cases st
    simp_all

theorem mapGet_mapSet (m : List (String × JsonRpcMsg)) (k k' : String) (v : JsonRpcMsg) :
    mapGet (mapSet m k v) k' = if k = k' then some v else mapGet m k' := by
  induction m with
  | nil => simp [mapSet, mapGet]
  | cons kv rest ih =>
      obtain ⟨k0, v0⟩ := kv
      by_cases h0 : k0 = k
      · subst h0
        by_cases h1 : k0 = k'
        · subst h1; simp [mapSet, mapGet]
        · simp [mapSet, mapGet, h1]
      · by_cases h1 : k0 = k'
        · subst h1
          have hk : ¬ k = k0 := fun h => h0 h.symm
          simp [mapSet, mapGet, h0, hk]
        · simp [mapSet, mapGet, h0, h1, ih]

theorem mem_mapSet {m : List (String × JsonRpcMsg)} {k : String} {v : JsonRpcMsg}
    {kv : String × JsonRpcMsg} (h : kv ∈ mapSet m k v) : kv ∈ m ∨ kv = (k, v) := by
  induction m with
  | nil =>
      simp [mapSet] at h
      simp [h]
  | cons kv0 rest ih =>
      obtain ⟨k0, v0⟩ := kv0
      by_cases h0 : k0 = k
      · subst h0
        simp only [mapSet, if_pos rfl] at h
        rcases List.mem_cons.mp h with h' | h'
        · right; simp [h']
        · left; simp [h']
      · simp only [mapSet, if_neg h0] at h
        rcases List.mem_cons.mp h with h' | h'
        · left; simp [h']
        · rcases ih h' with h'' | h''
          · left; simp [h'']
          · right; exact h''

theorem sessionCapture_shape (st : ProxyState) (o : HttpOutcome) :
    ∃ s, sessionCapture st o = { st with sessionId := s } := by
  unfold sessionCapture
  cases h : o.sessionHeader with
  | some sid => exact ⟨some sid, rfl⟩
  | none => exact ⟨st.sessionId, by cases st; rfl⟩

theorem markRecovered_eq (st : ProxyState) (method : String) :
    markRecovered st method =
      (if st.apiHealthy then st else { st with apiHealthy := true, healthTimers := 0 },
       if st.apiHealthy then []
       else if method = "tools/list" then [] else [Ev.down ntcMsg]) := by
  unfold markRecovered
  cases h : st.apiHealthy
  · simp only [h, stopHealthCheck_eq]
    by_cases hm : method = "tools/list" <;> simp [hm]
  · simp [h]

theorem markApiDown_eq (st : ProxyState) :
    markApiDown st =
      if st.apiHealthy then
        (if st.healthTimers ≠ 0 then { st with apiHealthy := false, sessionId := none }
         else { st with apiHealthy := false, sessionId := none, healthTimers := st.healthTimers + 1 })
      else st := by
  unfold markApiDown startHealthCheck
  cases h : st.apiHealthy <;> simp [h]

/-! ## The SSE reader: chunk-carry processing equals processing the complete
lines of the concatenated stream -/

theorem splitOnNl_cons (c : Char) (t : List Char) :
    splitOnNl (c :: t)
      = if c = '\n' then [] :: splitOnNl t
        else match splitOnNl t with
          | [] => [[c]]
          | l :: ls => (c :: l) :: ls := rfl

theorem splitOnNl_ne_nil (l : List Char) : splitOnNl l ≠ [] := by
  induction l with
  | nil => simp [splitOnNl]
  | cons c rest ih =>
      rw [splitOnNl_cons]
      split
      · simp
      · cases h : splitOnNl rest <;> simp

theorem splitOnNl_cons_nl (t : List Char) : splitOnNl ('\n' :: t) = [] :: splitOnNl t := by
  rw [splitOnNl_cons, if_pos rfl]

theorem splitOnNl_cons_ne (c : Char) (t : List Char) (hc : ¬ c = '\n') :
    splitOnNl (c :: t) = (c :: (splitOnNl t).headD []) :: (splitOnNl t).tail := by
  rw [splitOnNl_cons, if_neg hc]
  cases h : splitOnNl t with
  | nil => exact absurd h (splitOnNl_ne_nil t)
  | cons x xs => simp

theorem splitOnNl_no_nl (l : List Char) : '\n' ∉ (splitOnNl l).getLastD [] := by
  induction l with
  | nil => simp [splitOnNl]
  | cons c rest ih =>
      by_cases hc : c = '\n'
      · subst hc
        rw [splitOnNl_cons_nl, List.getLastD_cons]
        exact ih
      · rw [splitOnNl_cons_ne c rest hc, List.getLastD_cons]
        cases h : splitOnNl rest with
        | nil => exact absurd h (splitOnNl_ne_nil rest)
        | cons x xs =>
            cases xs with
            | nil =>
                simp only [List.tail_cons, List.headD_cons, List.getLastD_nil]
                rw [h] at ih
                simp only [List.getLastD_cons, List.getLastD_nil] at ih
                intro hmem
                rcases List.mem_cons.mp hmem with h' | h'
                · exact hc h'.symm
                · exact ih h'
            | cons y ys =>
                rw [h] at ih
                simp only [List.tail_cons, List.headD_cons]
                rw [List.getLastD_cons] at ih ⊢
                rw [List.getLastD_cons] at ih
                exact ih

theorem splitOnNl_of_no_nl (l : List Char) (h : '\n' ∉ l) : splitOnNl l = [l] := by
  induction l with
  | nil => rfl
  | cons c rest ih =>
      have hc : ¬ c = '\n' := fun hce => h (by simp [hce])
      rw [splitOnNl_cons_ne c rest hc, ih (fun hm => h (List.mem_cons_of_mem _ hm))]
      simp

theorem splitOnNl_append (a b : List Char) :
    splitOnNl (a ++ b)
      = (splitOnNl a).dropLast ++ splitOnNl ((splitOnNl a).getLastD [] ++ b) := by
  induction a with
  | nil => simp [splitOnNl]
  | cons c rest ih =>
      by_cases hc : c = '\n'
      · subst hc
        rw [List.cons_append, splitOnNl_cons_nl, splitOnNl_cons_nl, ih, List.getLastD_cons]
        cases h : splitOnNl rest with
        | nil => exact absurd h (splitOnNl_ne_nil rest)
        | cons x xs => simp
      · rw [List.cons_append, splitOnNl_cons_ne c _ hc, splitOnNl_cons_ne c _ hc, ih]
        cases h : splitOnNl rest with
        | nil => exact absurd h (splitOnNl_ne_nil rest)
        | cons x xs =>
            cases xs with
            | nil =>
                simp only [List.headD_cons, List.tail_cons, List.getLastD_cons,
                  List.getLastD_nil, List.dropLast_single, List.nil_append]
                rw [List.cons_append, splitOnNl_cons_ne c _ hc]
            | cons y ys =>
                simp only [List.headD_cons, List.tail_cons, List.getLastD_cons,
                  List.dropLast_cons₂, List.cons_append]

theorem processSSELine_evs (parse : List Char → Option JsonRpcMsg) (reqId : RpcId)
    (method : String) (acc : SSEAcc) (line : List Char) :
    (processSSELine parse reqId method acc line).evs
      = acc.evs ++ ((sseDataMsg parse line).toList.map Ev.down) := by
  by_cases hpre : dataPrefix.isPrefixOf line = true
  · by_cases hdat : trimChars (line.drop 6) ≠ [] ∧ trimChars (line.drop 6) ≠ doneLit
    · cases h : parse (trimChars (line.drop 6)) with
      | some p =>
          by_cases hid : p.id? = some reqId <;>
            simp [processSSELine, sseDataMsg, hpre, hdat, h, hid]
      | none => simp [processSSELine, sseDataMsg, hpre, hdat, h]
    · simp [processSSELine, sseDataMsg, hpre, hdat]
  · simp [processSSELine, sseDataMsg, hpre]

theorem processSSELine_sent (parse : List Char → Option JsonRpcMsg) (reqId : RpcId)
    (method : String) (acc : SSEAcc) (line : List Char) :
    (processSSELine parse reqId method acc line).sent
      = (acc.sent || lineMatch parse reqId line) := by
  by_cases hpre : dataPrefix.isPrefixOf line = true
  · by_cases hdat : trimChars (line.drop 6) ≠ [] ∧ trimChars (line.drop 6) ≠ doneLit
    · cases h : parse (trimChars (line.drop 6)) with
      | some p =>
          by_cases hid : p.id? = some reqId <;>
            simp [processSSELine, lineMatch, sseDataMsg, hpre, hdat, h, hid]
      | none => simp [processSSELine, lineMatch, sseDataMsg, hpre, hdat, h]
    · simp [processSSELine, lineMatch, sseDataMsg, hpre, hdat]
  · simp [processSSELine, lineMatch, sseDataMsg, hpre]

theorem processSSELine_buf (parse : List Char → Option JsonRpcMsg) (reqId : RpcId)
    (method : String) (acc : SSEAcc) (line : List Char) :
    (processSSELine parse reqId method acc line).buf = acc.buf := by
  by_cases hpre : dataPrefix.isPrefixOf line = true
  · by_cases hdat : trimChars (line.drop 6) ≠ [] ∧ trimChars (line.drop 6) ≠ doneLit
    · cases h : parse (trimChars (line.drop 6)) with
      | some p =>
          by_cases hid : p.id? = some reqId <;>
            simp [processSSELine, hpre, hdat, h, hid]
      | none => simp [processSSELine, hpre, hdat, h]
    · simp [processSSELine, hpre, hdat]
  · simp [processSSELine, hpre]

theorem processSSELine_st (parse : List Char → Option JsonRpcMsg) (reqId : RpcId)
    (method : String) (acc : SSEAcc) (line : List Char) :
    ∃ c, (processSSELine parse reqId method acc line).st
      = { acc.st with responseCache := c } := by
  by_cases hpre : dataPrefix.isPrefixOf line = true
  · by_cases hdat : trimChars (line.drop 6) ≠ [] ∧ trimChars (line.drop 6) ≠ doneLit
    · cases h : parse (trimChars (line.drop 6)) with
      | some p =>
          by_cases hid : p.id? = some reqId
          · by_cases hca : (method = "tools/list" ∨ method = "initialize") ∧
                truthyResult p.result = true
            · exact ⟨mapSet acc.st.responseCache method p,
                by simp [processSSELine, hpre, hdat, h, hid, hca]⟩
            · exact ⟨acc.st.responseCache,
                by simp [processSSELine, hpre, hdat, h, hid, hca]⟩
          · exact ⟨acc.st.responseCache, by simp [processSSELine, hpre, hdat, h, hid]⟩
      | none => exact ⟨acc.st.responseCache, by simp [processSSELine, hpre, hdat, h]⟩
    · exact ⟨acc.st.responseCache, by simp [processSSELine, hpre, hdat]⟩
  · exact ⟨acc.st.responseCache, by simp [processSSELine, hpre]⟩

theorem foldl_lines_evs (parse : List Char → Option JsonRpcMsg) (reqId : RpcId)
    (method : String) (lines : List (List Char)) :
    ∀ acc : SSEAcc, (lines.foldl (processSSELine parse reqId method) acc).evs
      = acc.evs ++ (lines.filterMap (sseDataMsg parse)).map Ev.down := by
  induction lines with
  | nil => intro acc; simp
  | cons l ls ih =>
      intro acc
      rw [List.foldl_cons, ih, processSSELine_evs]
      cases h : sseDataMsg parse l <;> simp [h]

theorem foldl_lines_sent (parse : List Char → Option JsonRpcMsg) (reqId : RpcId)
    (method : String) (lines : List (List Char)) :
    ∀ acc : SSEAcc, (lines.foldl (processSSELine parse reqId method) acc).sent
      = (acc.sent || lines.any (lineMatch parse reqId)) := by
  induction lines with
  | nil => intro acc; simp
  | cons l ls ih =>
      intro acc
      rw [List.foldl_cons, ih, processSSELine_sent]
      simp [Bool.or_assoc]

theorem foldl_lines_buf (parse : List Char → Option JsonRpcMsg) (reqId : RpcId)
    (method : String) (lines : List (List Char)) :
    ∀ acc : SSEAcc, (lines.foldl (processSSELine parse reqId method) acc).buf = acc.buf := by
  induction lines with
  | nil => intro acc; simp
  | cons l ls ih =>
      intro acc
      rw [List.foldl_cons, ih, processSSELine_buf]

theorem foldl_lines_st (parse : List Char → Option JsonRpcMsg) (reqId : RpcId)
    (method : String) (lines : List (List Char)) :
    ∀ acc : SSEAcc, ∃ c, (lines.foldl (processSSELine parse reqId method) acc).st
      = { acc.st with responseCache := c } := by
  induction lines with
  | nil =>
      intro acc
      exact ⟨acc.st.responseCache, by simp⟩
  | cons l ls ih =>
      intro acc
      obtain ⟨c0, h0⟩ := processSSELine_st parse reqId method acc l
      obtain ⟨c1, h1⟩ := ih (processSSELine parse reqId method acc l)
      rw [List.foldl_cons, h1, h0]
      exact ⟨c1, rfl⟩

theorem foldl_chunks_spec (parse : List Char → Option JsonRpcMsg) (reqId : RpcId)
    (method : String) (chunks : List (List Char)) :
    ∀ acc : SSEAcc, '\n' ∉ acc.buf →
      (let r := chunks.foldl (processSSEChunk parse reqId method) acc
       let lines := (splitOnNl (acc.buf ++ chunks.flatten)).dropLast
       r.evs = acc.evs ++ (lines.filterMap (sseDataMsg parse)).map Ev.down ∧
       r.sent = (acc.sent || lines.any (lineMatch parse reqId)) ∧
       ∃ c, r.st = { acc.st with responseCache := c }) := by
  induction chunks with
  | nil =>
      intro acc hbuf
      refine ⟨?_, ?_, acc.st.responseCache, by simp⟩
      · simp [splitOnNl_of_no_nl acc.buf hbuf]
      · simp [splitOnNl_of_no_nl acc.buf hbuf]
  | cons ch chs ih =>
      intro acc hbuf
      have hsplit := splitOnNl_append (acc.buf ++ ch) chs.flatten
      have hnonil : splitOnNl ((splitOnNl (acc.buf ++ ch)).getLastD [] ++ chs.flatten) ≠ [] :=
        splitOnNl_ne_nil _
      -- the accumulator after the first chunk
      set acc1 := processSSEChunk parse reqId method acc ch with hacc1
      have hbuf1 : acc1.buf = (splitOnNl (acc.buf ++ ch)).getLastD [] := by
        rw [hacc1]
        unfold processSSEChunk
        rw [foldl_lines_buf]
      have hnl1 : '\n' ∉ acc1.buf := by rw [hbuf1]; exact splitOnNl_no_nl _
      obtain ⟨hevs1, hsent1, c1, hst1⟩ := ih acc1 hnl1
      -- characterize acc1 itself
      have hevsA : acc1.evs = acc.evs ++
          (((splitOnNl (acc.buf ++ ch)).dropLast).filterMap (sseDataMsg parse)).map Ev.down := by
        rw [hacc1]; unfold processSSEChunk; rw [foldl_lines_evs]
      have hsentA : acc1.sent = (acc.sent ||
          ((splitOnNl (acc.buf ++ ch)).dropLast).any (lineMatch parse reqId)) := by
        rw [hacc1]; unfold processSSEChunk; rw [foldl_lines_sent]
      have hstA : ∃ c, acc1.st = { acc.st with responseCache := c } := by
        rw [hacc1]; unfold processSSEChunk
        obtain ⟨c, hc⟩ := foldl_lines_st parse reqId method
          ((splitOnNl (acc.buf ++ ch)).dropLast) { acc with buf := (splitOnNl (acc.buf ++ ch)).getLastD [] }
        exact ⟨c, by rw [hc]⟩
      -- assemble
      have hlines : (splitOnNl (acc.buf ++ (ch :: chs).flatten)).dropLast
          = (splitOnNl (acc.buf ++ ch)).dropLast
            ++ (splitOnNl ((splitOnNl (acc.buf ++ ch)).getLastD [] ++ chs.flatten)).dropLast := by
        rw [List.flatten_cons, ← List.append_assoc, hsplit,
          List.dropLast_append_of_ne_nil _ hnonil]
      refine ⟨?_, ?_, ?_⟩
      · rw [List.foldl_cons, ← hacc1, hevs1, hevsA, hbuf1, hlines]
        simp [List.filterMap_append]
      · rw [List.foldl_cons, ← hacc1, hsent1, hsentA, hbuf1, hlines]
        simp [List.any_append, Bool.or_assoc]
      · rw [List.foldl_cons, ← hacc1]
        obtain ⟨cA, hA⟩ := hstA
        rw [hst1, hA]
        exact ⟨c1, rfl⟩

theorem any_lineMatch_eq (parse : List Char → Option JsonRpcMsg) (reqId : RpcId)
    (lines : List (List Char)) :
    lines.any (lineMatch parse reqId)
      = (lines.filterMap (sseDataMsg parse)).any
          (fun p => decide (p.id? = some reqId)) := by
  induction lines with
  | nil => rfl
  | cons l ls ih =>
      cases h : sseDataMsg parse l <;> simp [lineMatch, h, ih]

theorem handleSSE_some (parse : List Char → Option JsonRpcMsg) (st : ProxyState)
    (chunks : List (List Char)) (reqId : RpcId) (method : String) :
    (handleSSE parse st (some chunks) reqId method).2
      = ((sseLines chunks).filterMap (sseDataMsg parse)).map Ev.down
        ++ (if (sseLines chunks).any (lineMatch parse reqId) then []
            else [Ev.down (errResp reqId "No valid response received from SSE stream")]) := by
  obtain ⟨hevs, hsent, c, hst⟩ := foldl_chunks_spec parse reqId method chunks
    { st := st, evs := [], sent := false, buf := [] } (by simp)
  simp only [List.nil_append] at hevs hsent
  unfold handleSSE
  rw [show (splitOnNl chunks.flatten).dropLast = sseLines chunks from rfl] at hevs hsent
  by_cases hany : (sseLines chunks).any (lineMatch parse reqId) = true
  · rw [hany] at hsent
    simp only [Bool.false_or] at hsent
    simp [hsent, hany, hevs]
  · rw [Bool.not_eq_true] at hany
    rw [hany] at hsent
    simp only [Bool.false_or] at hsent
    simp [hsent, hany, hevs]

theorem handleSSE_st_shape (parse : List Char → Option JsonRpcMsg) (st : ProxyState)
    (body : Option (List (List Char))) (reqId : RpcId) (method : String) :
    ∃ c, (handleSSE parse st body reqId method).1 = { st with responseCache := c } := by
  cases body with
  | none => exact ⟨st.responseCache, by simp [handleSSE]⟩
  | some chunks =>
      obtain ⟨hevs, hsent, c, hst⟩ := foldl_chunks_spec parse reqId method chunks
        { st := st, evs := [], sent := false, buf := [] } (by simp)
      refine ⟨c, ?_⟩
      simp only [handleSSE]
      split <;> simpa using hst

/-! ## Shape lemmas: which state fields each operation can touch -/

theorem reinit_state (st : ProxyState) (o : ReinitOutcome) :
    ∃ s i c, (reinitializeSession st o).1
      = { st with sessionId := s, initialized := i, responseCache := c } := by
  cases st
  simp only [reinitializeSession]
  by_cases h1 : o.fetchThrows = true
  · simp [h1]
  · simp only [h1]
    by_cases h2 : httpOk o.status = false
    · simp [h2]
    · simp only [h2]
      cases h3 : o.sessionHeader <;>
        by_cases h4 : o.jsonThrows = true <;>
          by_cases h5 : truthyResult o.body.result = true <;>
            simp [h3, h4, h5]

theorem reinit_evs_spec (st : ProxyState) (o : ReinitOutcome) :
    ∀ ev ∈ (reinitializeSession st o).2.1,
      ∃ sid kind, ev = Ev.post (getHeaders st.apiKey st.spaceId sid) kind ∧
        (kind = PostKind.reinitInit ∨ kind = PostKind.notifInitialized) := by
  intro ev hev
  by_cases h1 : o.fetchThrows = true
  · simp [reinitializeSession, h1] at hev
    exact ⟨none, .reinitInit, hev, Or.inl rfl⟩
  · by_cases h2 : httpOk o.status = false
    · simp [reinitializeSession, h1, h2] at hev
      exact ⟨none, .reinitInit, hev, Or.inl rfl⟩
    · by_cases h4 : o.jsonThrows = true
      · cases h3 : o.sessionHeader <;>
          · simp [reinitializeSession, h1, h2, h3, h4] at hev
            exact ⟨none, .reinitInit, hev, Or.inl rfl⟩
      · cases h3 : o.sessionHeader with
        | none =>
            by_cases h5 : truthyResult o.body.result = true <;>
              · simp [reinitializeSession, h1, h2, h3, h4, h5] at hev
                rcases hev with hev | hev
                · exact ⟨none, .reinitInit, hev, Or.inl rfl⟩
                · exact ⟨none, .notifInitialized, hev, Or.inr rfl⟩
        | some sid =>
            by_cases h5 : truthyResult o.body.result = true <;>
              · simp [reinitializeSession, h1, h2, h3, h4, h5] at hev
                rcases hev with hev | hev
                · exact ⟨none, .reinitInit, hev, Or.inl rfl⟩
                · exact ⟨some sid, .notifInitialized, hev, Or.inr rfl⟩

theorem deliver_state (parse : List Char → Option JsonRpcMsg) (st : ProxyState)
    (req : Request) (o : HttpOutcome) :
    ∃ c, (deliver parse st req o).1 = { st with responseCache := c } := by
  unfold deliver
  split
  · exact handleSSE_st_shape parse st o.sseBody req.id req.method
  · split
    · exact ⟨_, rfl⟩
    · exact ⟨st.responseCache, by cases st; rfl⟩

theorem deliver_evs_down (parse : List Char → Option JsonRpcMsg) (st : ProxyState)
    (req : Request) (o : HttpOutcome) :
    ∀ ev ∈ (deliver parse st req o).2, ∃ m, ev = Ev.down m := by
  intro ev hev
  unfold deliver at hev
  split at hev
  · cases hb : o.sseBody with
    | none => rw [hb] at hev; simp [handleSSE] at hev; exact ⟨_, hev⟩
    | some chunks =>
        rw [hb, handleSSE_some] at hev
        rcases List.mem_append.mp hev with h | h
        · obtain ⟨m, _, hm⟩ := List.mem_map.mp h
          exact ⟨m, hm.symm⟩
        · split at h
          · simp at h
          · simp at h; exact ⟨_, h⟩
  · split at hev <;> (simp at hev; exact ⟨_, hev⟩)

theorem markRecovered_evs_down (st : ProxyState) (method : String) :
    ∀ ev ∈ (markRecovered st method).2, ev = Ev.down ntcMsg := by
  intro ev hev
  rw [markRecovered_eq] at hev
  by_cases h : st.apiHealthy <;> simp [h] at hev
  by_cases hm : method = "tools/list" <;> simp [hm] at hev
  exact hev

theorem markRecovered_state (st : ProxyState) (method : String) :
    ∃ hl t, (markRecovered st method).1 = { st with apiHealthy := hl, healthTimers := t } := by
  rw [markRecovered_eq]
  by_cases h : st.apiHealthy
  · refine ⟨st.apiHealthy, st.healthTimers, ?_⟩
    rw [if_pos h]
  · refine ⟨true, 0, ?_⟩
    rw [if_neg h]

theorem runAttempts_state_shape (parse : List Char → Option JsonRpcMsg) (req : Request)
    (script : Nat → Outcome) :
    ∀ fuel attempt le st, ∃ s i c hl t,
      (runAttempts parse req script fuel attempt le st).1
        = { st with
              sessionId := s, initialized := i, responseCache := c,
              apiHealthy := hl, healthTimers := t } := by
  intro fuel
  induction fuel with
  | zero =>
      intro attempt le st
      exact ⟨st.sessionId, st.initialized, st.responseCache, st.apiHealthy, st.healthTimers,
        by cases st; rfl⟩
  | succ fuel ih =>
      intro attempt le st
      cases hscr : script attempt with
      | thrown e =>
          simp only [runAttempts, hscr]
          by_cases hstop : isTransientError e = false ∨ MAX_RETRIES ≤ attempt
          · rw [if_pos hstop]
            by_cases htr : (isTransientError e && st.sessionId.isSome) = true
            · rw [if_pos htr]
              exact ⟨none, st.initialized, st.responseCache, st.apiHealthy, st.healthTimers,
                by cases st; rfl⟩
            · rw [if_neg htr]
              exact ⟨st.sessionId, st.initialized, st.responseCache, st.apiHealthy,
                st.healthTimers, by cases st; rfl⟩
          · rw [if_neg hstop]
            by_cases htr : (isTransientError e && st.sessionId.isSome) = true
            · rw [if_pos htr]
              obtain ⟨s, i, c, hl, t, hrec⟩ := ih (attempt + 1) (some e.message)
                { st with sessionId := none }
              exact ⟨s, i, c, hl, t, by rw [hrec]⟩
            · rw [if_neg htr]
              exact ih (attempt + 1) (some e.message) st
      | http o =>
          simp only [runAttempts, hscr]
          obtain ⟨s1, hs1⟩ := sessionCapture_shape st o
          by_cases hok : httpOk o.status = true
          · rw [if_pos hok]
            obtain ⟨hl, t, hX⟩ := markRecovered_state (sessionCapture st o) req.method
            obtain ⟨c, hc⟩ := deliver_state parse
              ((markRecovered (sessionCapture st o) req.method).1) req o
            exact ⟨s1, st.initialized, c, hl, t, by rw [hc, hX, hs1]⟩
          · rw [if_neg hok]
            by_cases hretry : (isRetryableStatus o.status && decide (attempt < MAX_RETRIES)) = true
            · rw [if_pos hretry]
              obtain ⟨s, i, c, hl, t, hrec⟩ := ih (attempt + 1)
                (some ("HTTP " ++ toString o.status)) (sessionCapture st o)
              exact ⟨s, i, c, hl, t, by rw [hrec, hs1]⟩
            · rw [if_neg hretry]
              by_cases hstale : (o.status = 400 ∨ o.status = 404) ∧ attempt < MAX_RETRIES
              · rw [if_pos hstale]
                obtain ⟨s2, i2, c2, hri⟩ := reinit_state (sessionCapture st o) o.reinit
                cases hres : (reinitializeSession (sessionCapture st o) o.reinit).2.2 with
                | returned ok =>
                    cases ok with
                    | true =>
                        obtain ⟨s, i, c, hl, t, hrec⟩ := ih (attempt + 1)
                          (some ("HTTP " ++ toString o.status))
                          (reinitializeSession (sessionCapture st o) o.reinit).1
                        exact ⟨s, i, c, hl, t, by rw [hrec, hri, hs1]⟩
                    | false =>
                        exact ⟨s2, i2, c2, st.apiHealthy, st.healthTimers,
                          by rw [hri, hs1]⟩
                | threw =>
                    exact ⟨s2, i2, c2, st.apiHealthy, st.healthTimers,
                      by rw [hri, hs1]⟩
              · rw [if_neg hstale]
                exact ⟨s1, st.initialized, st.responseCache, st.apiHealthy, st.healthTimers,
                  by rw [hs1]⟩

/-! ## Preservation of the prober-timer invariant -/

theorem timerInv_markRecovered (st : ProxyState) (m : String) (h : TimerInv st) :
    TimerInv (markRecovered st m).1 := by
  rw [markRecovered_eq]
  by_cases hh : st.apiHealthy
  · rw [if_pos hh]; exact h
  · rw [if_neg hh]
    exact ⟨by norm_num, fun hne => absurd rfl hne⟩

theorem timerInv_runAttempts (parse : List Char → Option JsonRpcMsg) (req : Request)
    (script : Nat → Outcome) :
    ∀ fuel attempt le st, TimerInv st →
      TimerInv (runAttempts parse req script fuel attempt le st).1 := by
  intro fuel
  induction fuel with
  | zero => intro attempt le st h; exact h
  | succ fuel ih =>
      intro attempt le st h
      cases hscr : script attempt with
      | thrown e =>
          simp only [runAttempts, hscr]
          by_cases hstop : isTransientError e = false ∨ MAX_RETRIES ≤ attempt
          · rw [if_pos hstop]
            try dsimp only
            split
            · exact ⟨h.1, h.2⟩
            · exact h
          · rw [if_neg hstop]
            try dsimp only
            split
            · exact ih _ _ _ ⟨h.1, h.2⟩
            · exact ih _ _ _ h
      | http o =>
          simp only [runAttempts, hscr]
          obtain ⟨s1, hs1⟩ := sessionCapture_shape st o
          have h1 : TimerInv (sessionCapture st o) := by rw [hs1]; exact ⟨h.1, h.2⟩
          by_cases hok : httpOk o.status = true
          · rw [if_pos hok]
            try dsimp only
            obtain ⟨c, hc⟩ := deliver_state parse
              ((markRecovered (sessionCapture st o) req.method).1) req o
            rw [hc]
            have hmr := timerInv_markRecovered (sessionCapture st o) req.method h1
            exact ⟨hmr.1, hmr.2⟩
          · rw [if_neg hok]
            by_cases hretry : (isRetryableStatus o.status && decide (attempt < MAX_RETRIES)) = true
            · rw [if_pos hretry]
              try dsimp only
              exact ih _ _ _ h1
            · rw [if_neg hretry]
              by_cases hstale : (o.status = 400 ∨ o.status = 404) ∧ attempt < MAX_RETRIES
              · rw [if_pos hstale]
                try dsimp only
                obtain ⟨s2, i2, c2, hri⟩ := reinit_state (sessionCapture st o) o.reinit
                have h2 : TimerInv (reinitializeSession (sessionCapture st o) o.reinit).1 := by
                  rw [hri, hs1]; exact ⟨h.1, h.2⟩
                cases hres : (reinitializeSession (sessionCapture st o) o.reinit).2.2 with
                | returned ok =>
                    cases ok with
                    | true => exact ih _ _ _ h2
                    | false => exact h2
                | threw => exact h2
              · rw [if_neg hstale]
                exact h1

theorem timerInv_markApiDown (st : ProxyState) (h : TimerInv st) :
    TimerInv (markApiDown st) := by
  rw [markApiDown_eq]
  by_cases hh : st.apiHealthy
  · rw [if_pos hh]
    have ht : st.healthTimers = 0 := by
      by_contra hne
      have hdown := h.2 hne
      rw [hh] at hdown
      exact Bool.true_eq_false.mp hdown
    rw [if_neg (by simp [ht])]
    refine ⟨by simp [ht], fun _ => rfl⟩
  · rw [if_neg hh]
    exact h

theorem timerInv_rememberInit (st : ProxyState) (req : Request) (h : TimerInv st) :
    TimerInv (rememberInit st req) := by
  unfold rememberInit
  split
  · exact ⟨h.1, h.2⟩
  · exact h

theorem timerInv_proxyRequest (parse : List Char → Option JsonRpcMsg) (st : ProxyState)
    (req : Request) (script : Nat → Outcome) (h : TimerInv st) :
    TimerInv (proxyRequest parse st req script).1 := by
  unfold proxyRequest
  try dsimp only
  have hla := timerInv_runAttempts parse req script (MAX_RETRIES + 1) 0 none
    (rememberInit st req) (timerInv_rememberInit st req h)
  cases hres : (runAttempts parse req script (MAX_RETRIES + 1) 0 none (rememberInit st req)).2.2 with
  | sent => exact hla
  | exhausted le => exact timerInv_markApiDown _ hla

theorem timerInv_proberTick (st : ProxyState) (o : ReinitOutcome) (h : TimerInv st) :
    TimerInv (proberTick st o).1 := by
  unfold proberTick
  try dsimp only
  obtain ⟨s, i, c, hri⟩ := reinit_state st o
  have h1 : TimerInv (reinitializeSession st o).1 := by rw [hri]; exact ⟨h.1, h.2⟩
  cases hres : (reinitializeSession st o).2.2 with
  | returned ok =>
      cases ok with
      | false => exact h1
      | true =>
          have : TimerInv (stopHealthCheck { (reinitializeSession st o).1 with apiHealthy := true }) := by
            rw [stopHealthCheck_eq]
            exact ⟨by norm_num, fun hne => absurd rfl hne⟩
          exact this
  | threw => exact h1

theorem timerInv_handleNotification (st : ProxyState) (m : String) (h : TimerInv st) :
    TimerInv (handleNotification st m).1 := by
  unfold handleNotification
  split
  · exact ⟨h.1, h.2⟩
  · exact h

theorem timerInv_step (parse : List Char → Option JsonRpcMsg) (st : ProxyState)
    (a : PAction) (h : TimerInv st) : TimerInv (step parse st a).1 := by
  cases a with
  | request req script => exact timerInv_proxyRequest parse st req script h
  | tick o =>
      simp only [step]
      split
      · exact timerInv_proberTick st o h
      · exact h
  | notif m => exact timerInv_handleNotification st m h

theorem timerInv_run (parse : List Char → Option JsonRpcMsg) :
    ∀ (acts : List PAction) (st : ProxyState), TimerInv st → TimerInv (run parse st acts).1 := by
  intro acts
  induction acts with
  | nil => intro st h; exact h
  | cons a rest ih =>
      intro st h
      simp only [run]
      exact ih _ (timerInv_step parse st a h)

theorem timerInv_initState (k : String) (sp : Option String) : TimerInv (initState k sp) :=
  ⟨by simp [initState], fun hne => absurd rfl hne⟩

theorem timerInv_reachable (st : ProxyState) (h : Reachable st) : TimerInv st := by
  obtain ⟨parse, k, sp, acts, hrun⟩ := h
  rw [← hrun]
  exact timerInv_run parse acts (initState k sp) (timerInv_initState k sp)

/-! ## Header discipline: every upstream POST uses getHeaders at send time -/

theorem runAttempts_immut (parse : List Char → Option JsonRpcMsg) (req : Request)
    (script : Nat → Outcome) (fuel attempt : Nat) (le : Option String) (st : ProxyState) :
    (runAttempts parse req script fuel attempt le st).1.apiKey = st.apiKey ∧
    (runAttempts parse req script fuel attempt le st).1.spaceId = st.spaceId := by
  obtain ⟨s, i, c, hl, t, h⟩ := runAttempts_state_shape parse req script fuel attempt le st
  rw [h]
  exact ⟨rfl, rfl⟩

theorem markApiDown_immut (st : ProxyState) :
    (markApiDown st).apiKey = st.apiKey ∧ (markApiDown st).spaceId = st.spaceId := by
  rw [markApiDown_eq]
  split
  · split <;> exact ⟨rfl, rfl⟩
  · exact ⟨rfl, rfl⟩

theorem rememberInit_immut (st : ProxyState) (req : Request) :
    (rememberInit st req).apiKey = st.apiKey ∧ (rememberInit st req).spaceId = st.spaceId := by
  unfold rememberInit
  split <;> exact ⟨rfl, rfl⟩

theorem proxyRequest_immut (parse : List Char → Option JsonRpcMsg) (st : ProxyState)
    (req : Request) (script : Nat → Outcome) :
    (proxyRequest parse st req script).1.apiKey = st.apiKey ∧
    (proxyRequest parse st req script).1.spaceId = st.spaceId := by
  unfold proxyRequest
  try dsimp only
  have h1 := runAttempts_immut parse req script (MAX_RETRIES + 1) 0 none (rememberInit st req)
  have h0 := rememberInit_immut st req
  cases hres : (runAttempts parse req script (MAX_RETRIES + 1) 0 none (rememberInit st req)).2.2 with
  | sent => exact ⟨h1.1.trans h0.1, h1.2.trans h0.2⟩
  | exhausted le =>
      have h2 := markApiDown_immut (runAttempts parse req script (MAX_RETRIES + 1) 0 none
        (rememberInit st req)).1
      exact ⟨(h2.1.trans h1.1).trans h0.1, (h2.2.trans h1.2).trans h0.2⟩

theorem proberTick_immut (st : ProxyState) (o : ReinitOutcome) :
    (proberTick st o).1.apiKey = st.apiKey ∧ (proberTick st o).1.spaceId = st.spaceId := by
  unfold proberTick
  try dsimp only
  obtain ⟨s, i, c, hri⟩ := reinit_state st o
  cases hres : (reinitializeSession st o).2.2 with
  | returned ok =>
      cases ok with
      | false => rw [hri]; exact ⟨rfl, rfl⟩
      | true => rw [stopHealthCheck_eq, hri]; exact ⟨rfl, rfl⟩
  | threw => rw [hri]; exact ⟨rfl, rfl⟩

theorem handleNotification_immut (st : ProxyState) (m : String) :
    (handleNotification st m).1.apiKey = st.apiKey ∧
    (handleNotification st m).1.spaceId = st.spaceId := by
  unfold handleNotification
  split <;> exact ⟨rfl, rfl⟩

theorem step_immut (parse : List Char → Option JsonRpcMsg) (st : ProxyState) (a : PAction) :
    (step parse st a).1.apiKey = st.apiKey ∧ (step parse st a).1.spaceId = st.spaceId := by
  cases a with
  | request req script => exact proxyRequest_immut parse st req script
  | tick o =>
      simp only [step]
      split
      · exact proberTick_immut st o
      · exact ⟨rfl, rfl⟩
  | notif m => exact handleNotification_immut st m

theorem goodPosts_nil (k : String) (sp : Option String) : GoodPosts k sp [] := by
  intro hs pk hmem
  simp at hmem

theorem goodPosts_append {k : String} {sp : Option String} {a b : List Ev}
    (ha : GoodPosts k sp a) (hb : GoodPosts k sp b) : GoodPosts k sp (a ++ b) := by
  intro hs pk hmem
  rcases List.mem_append.mp hmem with h | h
  · exact ha hs pk h
  · exact hb hs pk h

theorem goodPosts_delay (k : String) (sp : Option String) (c : Prop) [Decidable c] (d : Nat) :
    GoodPosts k sp (if c then [Ev.sleep d] else []) := by
  intro hs pk hmem
  split at hmem <;> simp at hmem

theorem goodPosts_downs (k : String) (sp : Option String) (evs : List Ev)
    (h : ∀ ev ∈ evs, ∃ m, ev = Ev.down m) : GoodPosts k sp evs := by
  intro hs pk hmem
  obtain ⟨m, hm⟩ := h _ hmem
  simp at hm

theorem goodPosts_post (k : String) (sp : Option String) (sid : Option String) (pk : PostKind) :
    GoodPosts k sp [Ev.post (getHeaders k sp sid) pk] := by
  intro hs pk' hmem
  simp at hmem
  exact ⟨sid, hmem.1⟩

theorem goodPosts_mono {k k' : String} {sp sp' : Option String} {evs : List Ev}
    (hk : k = k') (hsp : sp = sp') (h : GoodPosts k sp evs) : GoodPosts k' sp' evs := by
  subst hk
  subst hsp
  exact h

theorem goodPosts_reinit (st : ProxyState) (o : ReinitOutcome) :
    GoodPosts st.apiKey st.spaceId (reinitializeSession st o).2.1 := by
  intro hs pk hmem
  obtain ⟨sid, kind, hev, _⟩ := reinit_evs_spec st o _ hmem
  exact ⟨sid, by injection hev with h1 h2⟩

theorem goodPosts_runAttempts (parse : List Char → Option JsonRpcMsg) (req : Request)
    (script : Nat → Outcome) :
    ∀ fuel attempt le st,
      GoodPosts st.apiKey st.spaceId (runAttempts parse req script fuel attempt le st).2.1 := by
  intro fuel
  induction fuel with
  | zero => intro attempt le st; exact goodPosts_nil _ _
  | succ fuel ih =>
      intro attempt le st
      cases hscr : script attempt with
      | thrown e =>
          simp only [runAttempts, hscr]
          by_cases hstop : isTransientError e = false ∨ MAX_RETRIES ≤ attempt
          · rw [if_pos hstop]
            exact goodPosts_append (goodPosts_delay _ _ _ _)
              (goodPosts_post _ _ st.sessionId _)
          · rw [if_neg hstop]
            by_cases htr : (isTransientError e && st.sessionId.isSome) = true
            · rw [if_pos htr]
              exact goodPosts_append (goodPosts_append (goodPosts_delay _ _ _ _)
                (goodPosts_post _ _ st.sessionId _))
                (ih (attempt + 1) (some e.message) { st with sessionId := none })
            · rw [if_neg htr]
              exact goodPosts_append (goodPosts_append (goodPosts_delay _ _ _ _)
                (goodPosts_post _ _ st.sessionId _))
                (ih (attempt + 1) (some e.message) st)
      | http o =>
          simp only [runAttempts, hscr]
          obtain ⟨s1, hs1⟩ := sessionCapture_shape st o
          have hkeq : (sessionCapture st o).apiKey = st.apiKey := by rw [hs1]
          have hspeq : (sessionCapture st o).spaceId = st.spaceId := by rw [hs1]
          by_cases hok : httpOk o.status = true
          · rw [if_pos hok]
            refine goodPosts_append (goodPosts_append (goodPosts_append
              (goodPosts_delay _ _ _ _) (goodPosts_post _ _ st.sessionId _)) ?_) ?_
            · exact goodPosts_downs _ _ _
                (fun ev hmem => ⟨ntcMsg, markRecovered_evs_down _ _ ev hmem⟩)
            · exact goodPosts_downs _ _ _ (deliver_evs_down _ _ _ _)
          · rw [if_neg hok]
            by_cases hretry : (isRetryableStatus o.status && decide (attempt < MAX_RETRIES)) = true
            · rw [if_pos hretry]
              refine goodPosts_append (goodPosts_append (goodPosts_delay _ _ _ _)
                (goodPosts_post _ _ st.sessionId _)) ?_
              exact goodPosts_mono hkeq hspeq
                (ih (attempt + 1) (some ("HTTP " ++ toString o.status)) (sessionCapture st o))
            · rw [if_neg hretry]
              by_cases hstale : (o.status = 400 ∨ o.status = 404) ∧ attempt < MAX_RETRIES
              · rw [if_pos hstale]
                have hre := goodPosts_mono hkeq hspeq
                  (goodPosts_reinit (sessionCapture st o) o.reinit)
                obtain ⟨s2, i2, c2, hri⟩ := reinit_state (sessionCapture st o) o.reinit
                cases hres : (reinitializeSession (sessionCapture st o) o.reinit).2.2 with
                | returned ok =>
                    cases ok with
                    | true =>
                        refine goodPosts_append (goodPosts_append (goodPosts_append
                          (goodPosts_delay _ _ _ _) (goodPosts_post _ _ st.sessionId _)) hre) ?_
                        have hka : (reinitializeSession (sessionCapture st o) o.reinit).1.apiKey
                            = st.apiKey := by rw [hri, hs1]
                        have hsa : (reinitializeSession (sessionCapture st o) o.reinit).1.spaceId
                            = st.spaceId := by rw [hri, hs1]
                        exact goodPosts_mono hka hsa
                          (ih (attempt + 1) (some ("HTTP " ++ toString o.status)) _)
                    | false =>
                        exact goodPosts_append (goodPosts_append (goodPosts_delay _ _ _ _)
                          (goodPosts_post _ _ st.sessionId _)) hre
                | threw =>
                    exact goodPosts_append (goodPosts_append (goodPosts_delay _ _ _ _)
                      (goodPosts_post _ _ st.sessionId _)) hre
              · rw [if_neg hstale]
                exact goodPosts_append (goodPosts_delay _ _ _ _)
                  (goodPosts_post _ _ st.sessionId _)

theorem goodPosts_proxyRequest (parse : List Char → Option JsonRpcMsg) (st : ProxyState)
    (req : Request) (script : Nat → Outcome) :
    GoodPosts st.apiKey st.spaceId (proxyRequest parse st req script).2 := by
  unfold proxyRequest
  try dsimp only
  have h0 := rememberInit_immut st req
  have hla := goodPosts_mono h0.1 h0.2
    (goodPosts_runAttempts parse req script (MAX_RETRIES + 1) 0 none (rememberInit st req))
  cases hres : (runAttempts parse req script (MAX_RETRIES + 1) 0 none (rememberInit st req)).2.2 with
  | sent => exact hla
  | exhausted le =>
      exact goodPosts_append hla (goodPosts_downs _ _ _ (fun ev hmem => ⟨_, by simpa using hmem⟩))

theorem goodPosts_proberTick (st : ProxyState) (o : ReinitOutcome) :
    GoodPosts st.apiKey st.spaceId (proberTick st o).2 := by
  unfold proberTick
  try dsimp only
  have hre := goodPosts_reinit st o
  cases hres : (reinitializeSession st o).2.2 with
  | returned ok =>
      cases ok with
      | false => exact hre
      | true =>
          exact goodPosts_append hre
            (goodPosts_downs _ _ _ (fun ev hmem => ⟨ntcMsg, by simpa using hmem⟩))
  | threw => exact hre

theorem goodPosts_handleNotification (st : ProxyState) (m : String) :
    GoodPosts st.apiKey st.spaceId (handleNotification st m).2 := by
  unfold handleNotification
  try dsimp only
  split
  · exact goodPosts_post _ _ st.sessionId _
  · exact goodPosts_post _ _ st.sessionId _

theorem goodPosts_step (parse : List Char → Option JsonRpcMsg) (st : ProxyState) (a : PAction) :
    GoodPosts st.apiKey st.spaceId (step parse st a).2 := by
  cases a with
  | request req script => exact goodPosts_proxyRequest parse st req script
  | tick o =>
      simp only [step]
      split
      · exact goodPosts_proberTick st o
      · exact goodPosts_nil _ _
  | notif m => exact goodPosts_handleNotification st m

theorem goodPosts_run (parse : List Char → Option JsonRpcMsg) :
    ∀ (acts : List PAction) (st : ProxyState),
      GoodPosts st.apiKey st.spaceId (run parse st acts).2 := by
  intro acts
  induction acts with
  | nil => intro st; exact goodPosts_nil _ _
  | cons a rest ih =>
      intro st
      simp only [run]
      refine goodPosts_append (goodPosts_step parse st a) ?_
      have him := step_immut parse st a
      exact goodPosts_mono him.1 him.2 (ih (step parse st a).1)

/-! ## Cache discipline: guarded overwrites only, never an eviction -/

theorem mapGet_isSome_mapSet (m : List (String × JsonRpcMsg)) (k k' : String)
    (v : JsonRpcMsg) (h : (mapGet m k').isSome) : (mapGet (mapSet m k v) k').isSome := by
  rw [mapGet_mapSet]
  split
  · simp
  · exact h

theorem cacheOk_refl (st : ProxyState) : CacheOk st st := ⟨id, fun _ h => h⟩

theorem cacheOk_of_eq {st st' : ProxyState}
    (h : st'.responseCache = st.responseCache) : CacheOk st st' := by
  constructor
  · intro hinv kv hmem
    rw [h] at hmem
    exact hinv kv hmem
  · intro k hk
    rw [h]
    exact hk

theorem cacheOk_trans {s1 s2 s3 : ProxyState} (h12 : CacheOk s1 s2) (h23 : CacheOk s2 s3) :
    CacheOk s1 s3 := ⟨fun h => h23.1 (h12.1 h), fun k hk => h23.2 k (h12.2 k hk)⟩

theorem cacheOk_set (st : ProxyState) (k : String) (v : JsonRpcMsg)
    (hk : k = "initialize" ∨ k = "tools/list") (hv : truthyResult v.result = true) :
    CacheOk st { st with responseCache := mapSet st.responseCache k v } := by
  constructor
  · intro hinv kv hmem
    rcases mem_mapSet hmem with h' | h'
    · exact hinv kv h'
    · subst h'
      exact ⟨hk, hv⟩
  · intro k' hk'
    exact mapGet_isSome_mapSet _ _ _ _ hk'

theorem cacheOk_processSSELine (parse : List Char → Option JsonRpcMsg) (reqId : RpcId)
    (method : String) (acc : SSEAcc) (line : List Char) :
    CacheOk acc.st (processSSELine parse reqId method acc line).st := by
  by_cases hpre : dataPrefix.isPrefixOf line = true
  · by_cases hdat : trimChars (line.drop 6) ≠ [] ∧ trimChars (line.drop 6) ≠ doneLit
    · cases h : parse (trimChars (line.drop 6)) with
      | some p =>
          by_cases hid : p.id? = some reqId
          · by_cases hca : (method = "tools/list" ∨ method = "initialize") ∧
                truthyResult p.result = true
            · have : (processSSELine parse reqId method acc line).st
                  = { acc.st with responseCache := mapSet acc.st.responseCache method p } := by
                simp [processSSELine, hpre, hdat, h, hid, hca]
              rw [this]
              exact cacheOk_set acc.st method p (Or.symm hca.1) hca.2
            · have : (processSSELine parse reqId method acc line).st = acc.st := by
                simp [processSSELine, hpre, hdat, h, hid, hca]
              rw [this]
              exact cacheOk_refl _
          · have : (processSSELine parse reqId method acc line).st = acc.st := by
              simp [processSSELine, hpre, hdat, h, hid]
            rw [this]
            exact cacheOk_refl _
      | none =>
          have : (processSSELine parse reqId method acc line).st = acc.st := by
            simp [processSSELine, hpre, hdat, h]
          rw [this]
          exact cacheOk_refl _
    · have : (processSSELine parse reqId method acc line).st = acc.st := by
        simp [processSSELine, hpre, hdat]
      rw [this]
      exact cacheOk_refl _
  · have : (processSSELine parse reqId method acc line).st = acc.st := by
      simp [processSSELine, hpre]
    rw [this]
    exact cacheOk_refl _

theorem cacheOk_foldl_lines (parse : List Char → Option JsonRpcMsg) (reqId : RpcId)
    (method : String) (lines : List (List Char)) :
    ∀ acc : SSEAcc, CacheOk acc.st (lines.foldl (processSSELine parse reqId method) acc).st := by
  induction lines with
  | nil => intro acc; exact cacheOk_refl _
  | cons l ls ih =>
      intro acc
      exact cacheOk_trans (cacheOk_processSSELine parse reqId method acc l)
        (ih (processSSELine parse reqId method acc l))

theorem cacheOk_foldl_chunks (parse : List Char → Option JsonRpcMsg) (reqId : RpcId)
    (method : String) (chunks : List (List Char)) :
    ∀ acc : SSEAcc, CacheOk acc.st (chunks.foldl (processSSEChunk parse reqId method) acc).st := by
  induction chunks with
  | nil => intro acc; exact cacheOk_refl _
  | cons ch chs ih =>
      intro acc
      refine cacheOk_trans ?_ (ih (processSSEChunk parse reqId method acc ch))
      unfold processSSEChunk
      try dsimp only
      exact cacheOk_foldl_lines parse reqId method _
        { acc with buf := (splitOnNl (acc.buf ++ ch)).getLastD [] }

theorem cacheOk_handleSSE (parse : List Char → Option JsonRpcMsg) (st : ProxyState)
    (body : Option (List (List Char))) (reqId : RpcId) (method : String) :
    CacheOk st (handleSSE parse st body reqId method).1 := by
  cases body with
  | none => exact cacheOk_refl _
  | some chunks =>
      have := cacheOk_foldl_chunks parse reqId method chunks
        { st := st, evs := [], sent := false, buf := [] }
      simp only [handleSSE]
      split <;> exact this

theorem cacheOk_deliver (parse : List Char → Option JsonRpcMsg) (st : ProxyState)
    (req : Request) (o : HttpOutcome) : CacheOk st (deliver parse st req o).1 := by
  unfold deliver
  split
  · exact cacheOk_handleSSE parse st o.sseBody req.id req.method
  · try dsimp only
    split
    · rename_i hca
      exact cacheOk_set st req.method o.body hca.1 hca.2
    · exact cacheOk_refl _

theorem cacheOk_reinit (st : ProxyState) (o : ReinitOutcome) :
    CacheOk st (reinitializeSession st o).1 := by
  by_cases h1 : o.fetchThrows = true
  · exact cacheOk_of_eq (by simp [reinitializeSession, h1])
  · by_cases h2 : httpOk o.status = false
    · exact cacheOk_of_eq (by simp [reinitializeSession, h1, h2])
    · by_cases h4 : o.jsonThrows = true
      · cases h3 : o.sessionHeader <;>
          exact cacheOk_of_eq (by simp [reinitializeSession, h1, h2, h3, h4])
      · by_cases h5 : truthyResult o.body.result = true
        · cases h3 : o.sessionHeader with
          | none =>
              have : (reinitializeSession st o).1
                  = { { st with sessionId := none, initialized := true } with
                      responseCache := mapSet st.responseCache "initialize" o.body } := by
                simp [reinitializeSession, h1, h2, h3, h4, h5]
              rw [this]
              exact (cacheOk_set { st with sessionId := none, initialized := true }
                "initialize" o.body (Or.inl rfl) h5)
          | some sid =>
              have : (reinitializeSession st o).1
                  = { { st with sessionId := some sid, initialized := true } with
                      responseCache := mapSet st.responseCache "initialize" o.body } := by
                simp [reinitializeSession, h1, h2, h3, h4, h5]
              rw [this]
              exact (cacheOk_set { st with sessionId := some sid, initialized := true }
                "initialize" o.body (Or.inl rfl) h5)
        · cases h3 : o.sessionHeader <;>
            exact cacheOk_of_eq (by simp [reinitializeSession, h1, h2, h3, h4, h5])

theorem cacheOk_sessionCapture (st : ProxyState) (o : HttpOutcome) :
    CacheOk st (sessionCapture st o) := by
  obtain ⟨s, hs⟩ := sessionCapture_shape st o
  exact cacheOk_of_eq (by rw [hs])

theorem cacheOk_markRecovered (st : ProxyState) (m : String) :
    CacheOk st (markRecovered st m).1 := by
  obtain ⟨hl, t, h⟩ := markRecovered_state st m
  exact cacheOk_of_eq (by rw [h])

theorem cacheOk_markApiDown (st : ProxyState) : CacheOk st (markApiDown st) := by
  rw [markApiDown_eq]
  refine cacheOk_of_eq ?_
  split
  · split <;> rfl
  · rfl

theorem cacheOk_runAttempts (parse : List Char → Option JsonRpcMsg) (req : Request)
    (script : Nat → Outcome) :
    ∀ fuel attempt le st, CacheOk st (runAttempts parse req script fuel attempt le st).1 := by
  intro fuel
  induction fuel with
  | zero => intro attempt le st; exact cacheOk_refl _
  | succ fuel ih =>
      intro attempt le st
      cases hscr : script attempt with
      | thrown e =>
          simp only [runAttempts, hscr]
          by_cases hstop : isTransientError e = false ∨ MAX_RETRIES ≤ attempt
          · rw [if_pos hstop]
            try dsimp only
            split
            · exact cacheOk_of_eq rfl
            · exact cacheOk_refl _
          · rw [if_neg hstop]
            by_cases htr : (isTransientError e && st.sessionId.isSome) = true
            · rw [if_pos htr]
              exact cacheOk_trans (cacheOk_of_eq rfl)
                (ih (attempt + 1) (some e.message) { st with sessionId := none })
            · rw [if_neg htr]
              exact ih (attempt + 1) (some e.message) st
      | http o =>
          simp only [runAttempts, hscr]
          have hsc := cacheOk_sessionCapture st o
          by_cases hok : httpOk o.status = true
          · rw [if_pos hok]
            try dsimp only
            exact cacheOk_trans hsc (cacheOk_trans
              (cacheOk_markRecovered (sessionCapture st o) req.method)
              (cacheOk_deliver parse _ req o))
          · rw [if_neg hok]
            by_cases hretry : (isRetryableStatus o.status && decide (attempt < MAX_RETRIES)) = true
            · rw [if_pos hretry]
              exact cacheOk_trans hsc (ih (attempt + 1) _ (sessionCapture st o))
            · rw [if_neg hretry]
              by_cases hstale : (o.status = 400 ∨ o.status = 404) ∧ attempt < MAX_RETRIES
              · rw [if_pos hstale]
                have hri := cacheOk_reinit (sessionCapture st o) o.reinit
                cases hres : (reinitializeSession (sessionCapture st o) o.reinit).2.2 with
                | returned ok =>
                    cases ok with
                    | true =>
                        exact cacheOk_trans hsc (cacheOk_trans hri
                          (ih (attempt + 1) _ (reinitializeSession (sessionCapture st o) o.reinit).1))
                    | false => exact cacheOk_trans hsc hri
                | threw => exact cacheOk_trans hsc hri
              · rw [if_neg hstale]
                exact hsc

theorem cacheOk_proxyRequest (parse : List Char → Option JsonRpcMsg) (st : ProxyState)
    (req : Request) (script : Nat → Outcome) :
    CacheOk st (proxyRequest parse st req script).1 := by
  unfold proxyRequest
  try dsimp only
  have h0 : CacheOk st (rememberInit st req) := by
    unfold rememberInit
    split
    · exact cacheOk_of_eq rfl
    · exact cacheOk_refl _
  have hla := cacheOk_trans h0
    (cacheOk_runAttempts parse req script (MAX_RETRIES + 1) 0 none (rememberInit st req))
  cases hres : (runAttempts parse req script (MAX_RETRIES + 1) 0 none (rememberInit st req)).2.2 with
  | sent => exact hla
  | exhausted le => exact cacheOk_trans hla (cacheOk_markApiDown _)

theorem cacheOk_proberTick (st : ProxyState) (o : ReinitOutcome) :
    CacheOk st (proberTick st o).1 := by
  unfold proberTick
  try dsimp only
  have hri := cacheOk_reinit st o
  cases hres : (reinitializeSession st o).2.2 with
  | returned ok =>
      cases ok with
      | false => exact hri
      | true =>
          refine cacheOk_trans hri ?_
          rw [stopHealthCheck_eq]
          exact cacheOk_of_eq rfl
  | threw => exact hri

theorem cacheOk_step (parse : List Char → Option JsonRpcMsg) (st : ProxyState) (a : PAction) :
    CacheOk st (step parse st a).1 := by
  cases a with
  | request req script => exact cacheOk_proxyRequest parse st req script
  | tick o =>
      simp only [step]
      split
      · exact cacheOk_proberTick st o
      · exact cacheOk_refl _
  | notif m =>
      simp only [step]
      unfold handleNotification
      try dsimp only
      split
      · exact cacheOk_of_eq rfl
      · exact cacheOk_refl _

theorem cacheOk_run (parse : List Char → Option JsonRpcMsg) :
    ∀ (acts : List PAction) (st : ProxyState), CacheOk st (run parse st acts).1 := by
  intro acts
  induction acts with
  | nil => intro st; exact cacheOk_refl _
  | cons a rest ih =>
      intro st
      simp only [run]
      exact cacheOk_trans (cacheOk_step parse st a) (ih (step parse st a).1)

theorem cacheInv_reachable (st : ProxyState) (h : Reachable st) : CacheInv st := by
  obtain ⟨parse, k, sp, acts, hrun⟩ := h
  rw [← hrun]
  refine (cacheOk_run parse acts (initState k sp)).1 ?_
  intro kv hmem
  simp [initState] at hmem

/-! ## The backoff schedule and attempt count -/

theorem sleeps_append (a b : List Ev) : sleeps (a ++ b) = sleeps a ++ sleeps b := by
  unfold sleeps
  exact List.filterMap_append a b _

theorem sleeps_of_downs (evs : List Ev) (h : ∀ ev ∈ evs, ∃ m, ev = Ev.down m) :
    sleeps evs = [] := by
  unfold sleeps
  rw [List.filterMap_eq_nil_iff]
  intro ev hmem
  obtain ⟨m, hm⟩ := h ev hmem
  rw [hm]

theorem sleeps_reinit (st : ProxyState) (o : ReinitOutcome) :
    sleeps (reinitializeSession st o).2.1 = [] := by
  unfold sleeps
  rw [List.filterMap_eq_nil_iff]
  intro ev hmem
  obtain ⟨sid, kind, hev, _⟩ := reinit_evs_spec st o ev hmem
  rw [hev]

theorem sleeps_single_sleep (d : Nat) : sleeps [Ev.sleep d] = [d] := rfl

theorem sleeps_single_post (hs : List (String × String)) (pk : PostKind) :
    sleeps [Ev.post hs pk] = [] := rfl

theorem attemptPosts_append (a b : List Ev) :
    attemptPosts (a ++ b) = attemptPosts a + attemptPosts b := by
  unfold attemptPosts
  exact List.countP_append _ _ _

theorem attemptPosts_of_downs (evs : List Ev) (h : ∀ ev ∈ evs, ∃ m, ev = Ev.down m) :
    attemptPosts evs = 0 := by
  unfold attemptPosts
  rw [List.countP_eq_zero]
  intro ev hmem
  obtain ⟨m, hm⟩ := h ev hmem
  rw [hm]
  simp

theorem attemptPosts_reinit (st : ProxyState) (o : ReinitOutcome) :
    attemptPosts (reinitializeSession st o).2.1 = 0 := by
  unfold attemptPosts
  rw [List.countP_eq_zero]
  intro ev hmem
  obtain ⟨sid, kind, hev, hk⟩ := reinit_evs_spec st o ev hmem
  rw [hev]
  rcases hk with hk | hk <;> rw [hk] <;> simp

theorem attemptPosts_delay (c : Prop) [Decidable c] (d : Nat) :
    attemptPosts (if c then [Ev.sleep d] else []) = 0 := by
  split <;> rfl

theorem attemptPosts_single_post (hs : List (String × String)) (pk : PostKind) :
    attemptPosts [Ev.post hs pk] ≤ 1 := by
  unfold attemptPosts
  cases pk <;> simp [List.countP_cons]

theorem prefix_cons {a : Nat} {l1 l2 : List Nat} (h : l1 <+: l2) : a :: l1 <+: a :: l2 := by
  obtain ⟨t, ht⟩ := h
  exact ⟨t, by rw [List.cons_append, ht]⟩

theorem sleeps_runAttempts (parse : List Char → Option JsonRpcMsg) (req : Request)
    (script : Nat → Outcome) :
    ∀ fuel attempt le st, 1 ≤ attempt →
      sleeps (runAttempts parse req script fuel attempt le st).2.1
        <+: backoffDelays attempt fuel := by
  intro fuel
  induction fuel with
  | zero => intro attempt le st h; exact List.nil_prefix
  | succ fuel ih =>
      intro attempt le st hatt
      have hpos : 0 < attempt := hatt
      cases hscr : script attempt with
      | thrown e =>
          simp only [runAttempts, hscr]
          by_cases hstop : isTransientError e = false ∨ MAX_RETRIES ≤ attempt
          · rw [if_pos hstop]
            try dsimp only
            rw [if_pos hpos, sleeps_append, sleeps_single_sleep, sleeps_single_post]
            simp only [backoffDelays]
            exact ⟨backoffDelays (attempt + 1) fuel, by simp⟩
          · rw [if_neg hstop]
            by_cases htr : (isTransientError e && st.sessionId.isSome) = true
            · rw [if_pos htr]
              rw [if_pos hpos, sleeps_append, sleeps_append, sleeps_single_sleep,
                sleeps_single_post]
              simp only [backoffDelays, List.nil_append]
              exact prefix_cons (ih (attempt + 1) (some e.message)
                { st with sessionId := none } (Nat.le_succ_of_le hatt))
            · rw [if_neg htr]
              rw [if_pos hpos, sleeps_append, sleeps_append, sleeps_single_sleep,
                sleeps_single_post]
              simp only [backoffDelays, List.nil_append]
              exact prefix_cons (ih (attempt + 1) (some e.message) st (Nat.le_succ_of_le hatt))
      | http o =>
          simp only [runAttempts, hscr]
          by_cases hok : httpOk o.status = true
          · rw [if_pos hok]
            try dsimp only
            rw [if_pos hpos, sleeps_append, sleeps_append, sleeps_append, sleeps_single_sleep,
              sleeps_single_post,
              sleeps_of_downs _ (fun ev hmem => ⟨ntcMsg, markRecovered_evs_down _ _ ev hmem⟩),
              sleeps_of_downs _ (deliver_evs_down _ _ _ _)]
            simp only [backoffDelays]
            exact ⟨backoffDelays (attempt + 1) fuel, by simp⟩
          · rw [if_neg hok]
            by_cases hretry : (isRetryableStatus o.status && decide (attempt < MAX_RETRIES)) = true
            · rw [if_pos hretry]
              rw [if_pos hpos, sleeps_append, sleeps_append, sleeps_single_sleep,
                sleeps_single_post]
              simp only [backoffDelays, List.nil_append]
              exact prefix_cons (ih (attempt + 1) _ (sessionCapture st o) (Nat.le_succ_of_le hatt))
            · rw [if_neg hretry]
              by_cases hstale : (o.status = 400 ∨ o.status = 404) ∧ attempt < MAX_RETRIES
              · rw [if_pos hstale]
                cases hres : (reinitializeSession (sessionCapture st o) o.reinit).2.2 with
                | returned ok =>
                    cases ok with
                    | true =>
                        rw [if_pos hpos, sleeps_append, sleeps_append, sleeps_append,
                          sleeps_single_sleep, sleeps_single_post, sleeps_reinit]
                        simp only [backoffDelays, List.nil_append]
                        exact prefix_cons (ih (attempt + 1) _
                          (reinitializeSession (sessionCapture st o) o.reinit).1
                          (Nat.le_succ_of_le hatt))
                    | false =>
                        rw [if_pos hpos, sleeps_append, sleeps_append, sleeps_single_sleep,
                          sleeps_single_post, sleeps_reinit]
                        simp only [backoffDelays]
                        exact ⟨backoffDelays (attempt + 1) fuel, by simp⟩
                | threw =>
                    rw [if_pos hpos, sleeps_append, sleeps_append, sleeps_single_sleep,
                      sleeps_single_post, sleeps_reinit]
                    simp only [backoffDelays]
                    exact ⟨backoffDelays (attempt + 1) fuel, by simp⟩
              · rw [if_neg hstale]
                rw [if_pos hpos, sleeps_append, sleeps_single_sleep, sleeps_single_post]
                simp only [backoffDelays]
                exact ⟨backoffDelays (attempt + 1) fuel, by simp⟩

theorem attemptPosts_request_post (hs : List (String × String)) (m : String) (i : RpcId) :
    attemptPosts [Ev.post hs (PostKind.request m i)] = 1 := rfl

theorem sleeps_runAttempts_zero (parse : List Char → Option JsonRpcMsg) (req : Request)
    (script : Nat → Outcome) (fuel : Nat) (le : Option String) (st : ProxyState) :
    sleeps (runAttempts parse req script (fuel + 1) 0 le st).2.1 <+: backoffDelays 1 fuel := by
  have hneg : ¬ (0 : Nat) < 0 := by omega
  cases hscr : script 0 with
  | thrown e =>
      simp only [runAttempts, hscr]
      by_cases hstop : isTransientError e = false ∨ MAX_RETRIES ≤ 0
      · rw [if_pos hstop]
        try dsimp only
        rw [if_neg hneg, List.nil_append, sleeps_single_post]
        exact List.nil_prefix
      · rw [if_neg hstop]
        by_cases htr : (isTransientError e && st.sessionId.isSome) = true
        · rw [if_pos htr]
          rw [if_neg hneg, List.nil_append, sleeps_append, sleeps_single_post, List.nil_append]
          exact sleeps_runAttempts parse req script fuel 1 (some e.message)
            { st with sessionId := none } (le_refl 1)
        · rw [if_neg htr]
          rw [if_neg hneg, List.nil_append, sleeps_append, sleeps_single_post, List.nil_append]
          exact sleeps_runAttempts parse req script fuel 1 (some e.message) st (le_refl 1)
  | http o =>
      simp only [runAttempts, hscr]
      by_cases hok : httpOk o.status = true
      · rw [if_pos hok]
        try dsimp only
        rw [if_neg hneg, List.nil_append, sleeps_append, sleeps_append, sleeps_single_post,
          sleeps_of_downs _ (fun ev hmem => ⟨ntcMsg, markRecovered_evs_down _ _ ev hmem⟩),
          sleeps_of_downs _ (deliver_evs_down _ _ _ _)]
        exact List.nil_prefix
      · rw [if_neg hok]
        by_cases hretry : (isRetryableStatus o.status && decide ((0 : Nat) < MAX_RETRIES)) = true
        · rw [if_pos hretry]
          rw [if_neg hneg, List.nil_append, sleeps_append, sleeps_single_post, List.nil_append]
          exact sleeps_runAttempts parse req script fuel 1 _ (sessionCapture st o) (le_refl 1)
        · rw [if_neg hretry]
          by_cases hstale : (o.status = 400 ∨ o.status = 404) ∧ (0 : Nat) < MAX_RETRIES
          · rw [if_pos hstale]
            cases hres : (reinitializeSession (sessionCapture st o) o.reinit).2.2 with
            | returned ok =>
                cases ok with
                | true =>
                    rw [if_neg hneg, List.nil_append, sleeps_append, sleeps_append,
                      sleeps_single_post, sleeps_reinit, List.nil_append, List.nil_append]
                    exact sleeps_runAttempts parse req script fuel 1 _
                      (reinitializeSession (sessionCapture st o) o.reinit).1 (le_refl 1)
                | false =>
                    rw [if_neg hneg, List.nil_append, sleeps_append, sleeps_single_post,
                      sleeps_reinit]
                    exact List.nil_prefix
            | threw =>
                rw [if_neg hneg, List.nil_append, sleeps_append, sleeps_single_post,
                  sleeps_reinit]
                exact List.nil_prefix
          · rw [if_neg hstale]
            rw [if_neg hneg, List.nil_append, sleeps_single_post]
            exact List.nil_prefix

theorem attemptPosts_runAttempts (parse : List Char → Option JsonRpcMsg) (req : Request)
    (script : Nat → Outcome) :
    ∀ fuel attempt le st,
      attemptPosts (runAttempts parse req script fuel attempt le st).2.1 ≤ fuel := by
  intro fuel
  induction fuel with
  | zero => intro attempt le st; exact le_refl 0
  | succ fuel ih =>
      intro attempt le st
      cases hscr : script attempt with
      | thrown e =>
          simp only [runAttempts, hscr]
          by_cases hstop : isTransientError e = false ∨ MAX_RETRIES ≤ attempt
          · rw [if_pos hstop]
            try dsimp only
            rw [attemptPosts_append, attemptPosts_delay, attemptPosts_request_post]
            omega
          · rw [if_neg hstop]
            by_cases htr : (isTransientError e && st.sessionId.isSome) = true
            · rw [if_pos htr]
              rw [attemptPosts_append, attemptPosts_append, attemptPosts_delay,
                attemptPosts_request_post]
              have := ih (attempt + 1) (some e.message) { st with sessionId := none }
              omega
            · rw [if_neg htr]
              rw [attemptPosts_append, attemptPosts_append, attemptPosts_delay,
                attemptPosts_request_post]
              have := ih (attempt + 1) (some e.message) st
              omega
      | http o =>
          simp only [runAttempts, hscr]
          by_cases hok : httpOk o.status = true
          · rw [if_pos hok]
            try dsimp only
            rw [attemptPosts_append, attemptPosts_append, attemptPosts_append,
              attemptPosts_delay, attemptPosts_request_post,
              attemptPosts_of_downs _ (fun ev hmem => ⟨ntcMsg, markRecovered_evs_down _ _ ev hmem⟩),
              attemptPosts_of_downs _ (deliver_evs_down _ _ _ _)]
            omega
          · rw [if_neg hok]
            by_cases hretry : (isRetryableStatus o.status && decide (attempt < MAX_RETRIES)) = true
            · rw [if_pos hretry]
              rw [attemptPosts_append, attemptPosts_append, attemptPosts_delay,
                attemptPosts_request_post]
              have := ih (attempt + 1) (some ("HTTP " ++ toString o.status)) (sessionCapture st o)
              omega
            · rw [if_neg hretry]
              by_cases hstale : (o.status = 400 ∨ o.status = 404) ∧ attempt < MAX_RETRIES
              · rw [if_pos hstale]
                cases hres : (reinitializeSession (sessionCapture st o) o.reinit).2.2 with
                | returned ok =>
                    cases ok with
                    | true =>
                        rw [attemptPosts_append, attemptPosts_append, attemptPosts_append,
                          attemptPosts_delay, attemptPosts_request_post, attemptPosts_reinit]
                        have := ih (attempt + 1) (some ("HTTP " ++ toString o.status))
                          (reinitializeSession (sessionCapture st o) o.reinit).1
                        omega
                    | false =>
                        rw [attemptPosts_append, attemptPosts_append, attemptPosts_delay,
                          attemptPosts_request_post, attemptPosts_reinit]
                        omega
                | threw =>
                    rw [attemptPosts_append, attemptPosts_append, attemptPosts_delay,
                      attemptPosts_request_post, attemptPosts_reinit]
                    omega
              · rw [if_neg hstale]
                rw [attemptPosts_append, attemptPosts_delay, attemptPosts_request_post]
                omega

/-! ## Unfolding helpers for the proxy request wrapper -/

theorem proxyRequest_sent (parse : List Char → Option JsonRpcMsg) (st : ProxyState)
    (req : Request) (script : Nat → Outcome) (st1 : ProxyState) (evs : List Ev)
    (h : runAttempts parse req script (MAX_RETRIES + 1) 0 none (rememberInit st req)
      = (st1, evs, .sent)) :
    proxyRequest parse st req script = (st1, evs) := by
  unfold proxyRequest
  rw [h]

theorem proxyRequest_exhausted (parse : List Char → Option JsonRpcMsg) (st : ProxyState)
    (req : Request) (script : Nat → Outcome) (st1 : ProxyState) (evs : List Ev)
    (le : Option String)
    (h : runAttempts parse req script (MAX_RETRIES + 1) 0 none (rememberInit st req)
      = (st1, evs, .exhausted le)) :
    proxyRequest parse st req script
      = (markApiDown st1, evs ++ [Ev.down (exhaustedReply (markApiDown st1) req le)]) := by
  unfold proxyRequest
  rw [h]

theorem sleeps_single_down (m : JsonRpcMsg) : sleeps [Ev.down m] = [] := rfl

theorem attemptPosts_single_down (m : JsonRpcMsg) : attemptPosts [Ev.down m] = 0 := rfl

/-- Claim C7: for every SSE stream consumed for a request, every complete
`data: ` line whose trimmed payload is non-empty, not `[DONE]`, and parses as
JSON is written downstream immediately and in order (including objects whose
id differs from the request's); malformed payloads are skipped silently; and
an error response with code `-32000` and message `No valid response received
from SSE stream` is emitted at stream end if and only if no forwarded
object's id equalled the originating request's id. -/
theorem c7_sse_passthrough (parse : List Char → Option JsonRpcMsg) (st : ProxyState)
    (chunks : List (List Char)) (reqId : RpcId) (method : String) :
    (handleSSE parse st (some chunks) reqId method).2
      = ((sseLines chunks).filterMap (sseDataMsg parse)).map Ev.down
        ++ (if ((sseLines chunks).filterMap (sseDataMsg parse)).any
              (fun p => decide (p.id? = some reqId)) then []
            else [Ev.down (errResp reqId "No valid response received from SSE stream")]) := by
  rw [handleSSE_some, any_lineMatch_eq]

/-- Claim C6: per request the proxy makes at most `MAX_RETRIES = 3` retries
(four attempts total), with no delay before the first attempt and exponential
backoff before each retry, so the sleep sequence of any request is a prefix of
`[1000, 2000, 4000]` ms; and a full four-attempt cycle (here: four transient
network failures) sleeps exactly 1000, 2000, 4000 ms. -/
theorem c6_backoff_schedule :
    (∀ (parse : List Char → Option JsonRpcMsg) (st : ProxyState) (req : Request)
        (script : Nat → Outcome),
      sleeps (proxyRequest parse st req script).2 <+: [1000, 2000, 4000] ∧
      attemptPosts (proxyRequest parse st req script).2 ≤ MAX_RETRIES + 1) ∧
    sleeps (proxyRequest parse0 (initState "K" none) { id := .num 3, method := "tools/call" }
      (fun _ => .thrown { isTypeError := true, isError := true, message := "fetch failed" })).2
      = [1000, 2000, 4000] := by
  constructor
  · intro parse st req script
    have hdel : backoffDelays 1 MAX_RETRIES = [1000, 2000, 4000] := by decide
    have hsl := sleeps_runAttempts_zero parse req script MAX_RETRIES none (rememberInit st req)
    have hap := attemptPosts_runAttempts parse req script (MAX_RETRIES + 1) 0 none
      (rememberInit st req)
    rw [hdel] at hsl
    unfold proxyRequest
    try dsimp only
    cases hres : (runAttempts parse req script (MAX_RETRIES + 1) 0 none
        (rememberInit st req)).2.2 with
    | sent => exact ⟨hsl, hap⟩
    | exhausted le =>
        constructor
        · rw [sleeps_append, sleeps_single_down, List.append_nil]
          exact hsl
        · rw [attemptPosts_append, attemptPosts_single_down]
          omega
  · decide

/-- Claim C8: every upstream POST the proxy issues carries
`Authorization: Bearer <token>`, `Content-Type: application/json` and
`Accept: application/json, text/event-stream`; it carries `Current-Space-Id`
exactly when `spaceId` is set and `Mcp-Session-Id` exactly when `sessionId`
is non-null at send time: every POST of any run uses `getHeaders` applied to
the immutable credentials and the session id current at that moment, and
`getHeaders` looks up as stated. -/
theorem c8_header_completeness :
    (∀ (k : String) (sp sid : Option String),
      lookupH (getHeaders k sp sid) "Authorization" = some ("Bearer " ++ k) ∧
      lookupH (getHeaders k sp sid) "Content-Type" = some "application/json" ∧
      lookupH (getHeaders k sp sid) "Accept" = some "application/json, text/event-stream" ∧
      lookupH (getHeaders k sp sid) "Current-Space-Id" = sp ∧
      lookupH (getHeaders k sp sid) "Mcp-Session-Id" = sid) ∧
    (∀ (parse : List Char → Option JsonRpcMsg) (k : String) (sp : Option String)
        (acts : List PAction) (hs : List (String × String)) (pk : PostKind),
      Ev.post hs pk ∈ (run parse (initState k sp) acts).2 →
      ∃ sid, hs = getHeaders k sp sid) := by
  constructor
  · intro k sp sid
    cases sp <;> cases sid <;> exact ⟨rfl, rfl, rfl, rfl, rfl⟩
  · intro parse k sp acts hs pk h
    exact goodPosts_run parse acts (initState k sp) hs pk h

/-- Claim C9: whenever the proxy is DOWN and either a request's upstream
attempt succeeds or a prober tick's re-mint succeeds, it transitions to
HEALTHY with exactly these side effects: the prober timer is stopped, and
exactly one `notifications/tools/list_changed` object is written downstream —
suppressed when the trigger is a successful `tools/list` request (the prober
path always notifies). -/
theorem c9_recovery_transition :
    (∀ (parse : List Char → Option JsonRpcMsg) (req : Request) (script : Nat → Outcome)
        (fuel attempt : Nat) (le : Option String) (st : ProxyState) (o : HttpOutcome),
      st.apiHealthy = false → script attempt = Outcome.http o → httpOk o.status = true →
      (runAttempts parse req script (fuel + 1) attempt le st).1.apiHealthy = true ∧
      (runAttempts parse req script (fuel + 1) attempt le st).1.healthTimers = 0 ∧
      (runAttempts parse req script (fuel + 1) attempt le st).2.1
        = (if 0 < attempt then [Ev.sleep (RETRY_DELAY_MS * 2 ^ (attempt - 1))] else [])
          ++ [Ev.post (getHeaders st.apiKey st.spaceId st.sessionId)
                (PostKind.request req.method req.id)]
          ++ (if req.method = "tools/list" then [] else [Ev.down ntcMsg])
          ++ (deliver parse
                { sessionCapture st o with apiHealthy := true, healthTimers := 0 } req o).2 ∧
      (runAttempts parse req script (fuel + 1) attempt le st).2.2 = LoopResult.sent) ∧
    (∀ (st : ProxyState) (o : ReinitOutcome) (st1 : ProxyState) (rEvs : List Ev),
      reinitializeSession st o = (st1, rEvs, .returned true) →
      proberTick st o = ({ st1 with apiHealthy := true, healthTimers := 0 },
                         rEvs ++ [Ev.down ntcMsg])) := by
  constructor
  · intro parse req script fuel attempt le st o hdown hscr hok
    obtain ⟨s1, hs1⟩ := sessionCapture_shape st o
    have hh : (sessionCapture st o).apiHealthy = false := by rw [hs1]; exact hdown
    obtain ⟨c, hc⟩ := deliver_state parse
      ((markRecovered (sessionCapture st o) req.method).1) req o
    have hmr : markRecovered (sessionCapture st o) req.method
        = ({ sessionCapture st o with apiHealthy := true, healthTimers := 0 },
           if req.method = "tools/list" then [] else [Ev.down ntcMsg]) := by
      rw [markRecovered_eq, hh]
      simp
    simp only [runAttempts, hscr]
    rw [if_pos hok]
    try dsimp only
    rw [hmr]
    refine ⟨?_, ?_, rfl, rfl⟩
    · obtain ⟨c', hc'⟩ := deliver_state parse
        { sessionCapture st o with apiHealthy := true, healthTimers := 0 } req o
      rw [hc']
    · obtain ⟨c', hc'⟩ := deliver_state parse
        { sessionCapture st o with apiHealthy := true, healthTimers := 0 } req o
      rw [hc']
  · intro st o st1 rEvs h
    unfold proberTick
    rw [h]
    try dsimp only
    rw [stopHealthCheck_eq]

/-- Claim C10: an upstream 400 or 404 on the final attempt
(`attempt = MAX_RETRIES`, i.e. the loop's remaining fuel is one) performs no
re-mint: the status is treated as non-retryable, the attempt loop stops with
the plain HTTP failure, and the request then falls through to the
retry-exhaustion handling of `proxyRequest` (cache substitution or the
synthesized `-32000` error, per `exhaustedReply`). -/
theorem c10_final_attempt_no_remint (parse : List Char → Option JsonRpcMsg) (req : Request)
    (script : Nat → Outcome) (le : Option String) (st : ProxyState) (o : HttpOutcome)
    (hscr : script MAX_RETRIES = Outcome.http o)
    (hst : o.status = 400 ∨ o.status = 404) :
    runAttempts parse req script 1 MAX_RETRIES le st
      = (sessionCapture st o,
         [Ev.sleep (RETRY_DELAY_MS * 2 ^ (MAX_RETRIES - 1)),
          Ev.post (getHeaders st.apiKey st.spaceId st.sessionId)
            (PostKind.request req.method req.id)],
         .exhausted (some ("HTTP " ++ toString o.status ++ ": " ++ o.statusText))) ∧
    (∀ (st1 : ProxyState) (evs : List Ev) (le' : Option String),
      runAttempts parse req script (MAX_RETRIES + 1) 0 none (rememberInit st req)
        = (st1, evs, .exhausted le') →
      proxyRequest parse st req script
        = (markApiDown st1, evs ++ [Ev.down (exhaustedReply (markApiDown st1) req le')])) := by
  constructor
  · have hokn : ¬ httpOk o.status = true := by
      rcases hst with h | h <;> rw [h] <;> decide
    have hretn : ¬ (isRetryableStatus o.status && decide (MAX_RETRIES < MAX_RETRIES)) = true := by
      simp
    have hstalen : ¬ ((o.status = 400 ∨ o.status = 404) ∧ MAX_RETRIES < MAX_RETRIES) :=
      fun hcon => absurd hcon.2 (lt_irrefl _)
    show runAttempts parse req script (0 + 1) MAX_RETRIES le st = _
    simp only [runAttempts, hscr]
    rw [if_neg hokn, if_neg hretn, if_neg hstalen, if_pos (by decide : (0 : Nat) < MAX_RETRIES)]
    rfl
  · intro st1 evs le' h
    exact proxyRequest_exhausted parse st req script st1 evs le' h

/-- Claim C5: an attempt that receives upstream HTTP 400 or 404 while a retry
remains (`attempt < MAX_RETRIES`) performs one synchronous re-mint — whose
POSTs (the synthetic `initialize` and the fire-and-forget
`notifications/initialized`) appear in the trace between this attempt's POST
and the next — before counting another retry (the loop continues at
`attempt + 1`); if the re-mint returns failure or throws, the attempt loop
stops with the `session re-init failed` error. -/
theorem c5_stale_session_remint (parse : List Char → Option JsonRpcMsg) (req : Request)
    (script : Nat → Outcome) (fuel attempt : Nat) (le : Option String) (st : ProxyState)
    (o : HttpOutcome)
    (hscr : script attempt = Outcome.http o)
    (hst : o.status = 400 ∨ o.status = 404)
    (hlt : attempt < MAX_RETRIES) :
    (∀ (st2 : ProxyState) (rEvs : List Ev),
      reinitializeSession (sessionCapture st o) o.reinit = (st2, rEvs, .returned true) →
      runAttempts parse req script (fuel + 1) attempt le st
        = ((runAttempts parse req script fuel (attempt + 1)
              (some ("HTTP " ++ toString o.status)) st2).1,
           (if 0 < attempt then [Ev.sleep (RETRY_DELAY_MS * 2 ^ (attempt - 1))] else [])
             ++ [Ev.post (getHeaders st.apiKey st.spaceId st.sessionId)
                   (PostKind.request req.method req.id)]
             ++ rEvs
             ++ (runAttempts parse req script fuel (attempt + 1)
                   (some ("HTTP " ++ toString o.status)) st2).2.1,
           (runAttempts parse req script fuel (attempt + 1)
             (some ("HTTP " ++ toString o.status)) st2).2.2)) ∧
    (∀ (st2 : ProxyState) (rEvs : List Ev) (r : ReinitRes),
      reinitializeSession (sessionCapture st o) o.reinit = (st2, rEvs, r) →
      r ≠ .returned true →
      runAttempts parse req script (fuel + 1) attempt le st
        = (st2,
           (if 0 < attempt then [Ev.sleep (RETRY_DELAY_MS * 2 ^ (attempt - 1))] else [])
             ++ [Ev.post (getHeaders st.apiKey st.spaceId st.sessionId)
                   (PostKind.request req.method req.id)]
             ++ rEvs,
           .exhausted (some ("HTTP " ++ toString o.status ++ ": session re-init failed")))) := by
  have hokn : ¬ httpOk o.status = true := by
    rcases hst with h | h <;> rw [h] <;> decide
  have hretn : ¬ (isRetryableStatus o.status && decide (attempt < MAX_RETRIES)) = true := by
    rcases hst with h | h <;> rw [h]
    · rw [(by decide : isRetryableStatus 400 = false)]
      simp
    · rw [(by decide : isRetryableStatus 404 = false)]
      simp
  constructor
  · intro st2 rEvs hre
    simp only [runAttempts, hscr]
    rw [if_neg hokn, if_neg hretn, if_pos ⟨hst, hlt⟩]
    try dsimp only
    rw [hre]
  · intro st2 rEvs r hre hne
    simp only [runAttempts, hscr]
    rw [if_neg hokn, if_neg hretn, if_pos ⟨hst, hlt⟩]
    try dsimp only
    rw [hre]
    cases r with
    | threw => rfl
    | returned ok =>
        cases ok with
        | true => exact absurd rfl hne
        | false => rfl

/-- Claim C1, counterexample to the claim as stated: in a real run, after a
successful `tools/list` populates the cache, a later `tools/list` request
served over SSE whose stream ends with no matching object makes the proxy
write a `-32000` error response downstream even though a cached successful
`tools/list` response exists (and remains cached, untouched, throughout). -/
theorem c1_counterexample :
    (mapGet (run parse0 (initState "K" none)
        [PAction.request { id := RpcId.num 10, method := "tools/list" }
          (fun _ => Outcome.http
            { status := 200,
              body := { id? := some (RpcId.num 10), result := some (ResultVal.truthyVal 7) } })]).1.responseCache
      "tools/list").isSome = true ∧
    (run parse0 (initState "K" none)
        [PAction.request { id := RpcId.num 10, method := "tools/list" }
          (fun _ => Outcome.http
            { status := 200,
              body := { id? := some (RpcId.num 10), result := some (ResultVal.truthyVal 7) } }),
         PAction.request { id := RpcId.num 11, method := "tools/list" }
          (fun _ => Outcome.http
            { status := 200, contentType := "text/event-stream", sseBody := some [] })]).1.responseCache
      = (run parse0 (initState "K" none)
        [PAction.request { id := RpcId.num 10, method := "tools/list" }
          (fun _ => Outcome.http
            { status := 200,
              body := { id? := some (RpcId.num 10), result := some (ResultVal.truthyVal 7) } })]).1.responseCache ∧
    Ev.down (errResp (RpcId.num 11) "No valid response received from SSE stream")
      ∈ (run parse0 (initState "K" none)
        [PAction.request { id := RpcId.num 10, method := "tools/list" }
          (fun _ => Outcome.http
            { status := 200,
              body := { id? := some (RpcId.num 10), result := some (ResultVal.truthyVal 7) } }),
         PAction.request { id := RpcId.num 11, method := "tools/list" }
          (fun _ => Outcome.http
            { status := 200, contentType := "text/event-stream", sseBody := some [] })]).2 := by
  decide

/-- Claim C1 as amended: on the retry-exhaustion path a `tools/list` request
never receives a synthesized error: the terminal reply is the cached response
with its id rewritten to the request's id when a cache entry exists, and the
empty-tools result (no error member) otherwise; and on exhaustion
`proxyRequest` emits exactly that reply.  (The SSE delivery path, by
contrast, can emit a `-32000` error for `tools/list` even while a cache entry
exists — see the counterexample.) -/
theorem c1_tools_list_exhaustion_never_error (st2 : ProxyState) (req : Request)
    (le : Option String) (hm : req.method = "tools/list") :
    (exhaustedReply st2 req le
      = match mapGet st2.responseCache "tools/list" with
        | some cached => { cached with id? := some req.id }
        | none => { id? := some req.id, result := some ResultVal.emptyTools }) ∧
    (mapGet st2.responseCache "tools/list" = none →
      (exhaustedReply st2 req le).error = none ∧
      (exhaustedReply st2 req le).result = some ResultVal.emptyTools) ∧
    (∀ (parse : List Char → Option JsonRpcMsg) (script : Nat → Outcome) (st : ProxyState)
        (st1 : ProxyState) (evs : List Ev),
      runAttempts parse req script (MAX_RETRIES + 1) 0 none (rememberInit st req)
        = (st1, evs, .exhausted le) →
      proxyRequest parse st req script
        = (markApiDown st1, evs ++ [Ev.down (exhaustedReply (markApiDown st1) req le)])) := by
  refine ⟨?_, ?_, ?_⟩
  · unfold exhaustedReply
    rw [if_pos hm]
  · intro hnone
    unfold exhaustedReply
    rw [if_pos hm, hnone]
    exact ⟨rfl, rfl⟩
  · intro parse script st st1 evs h
    exact proxyRequest_exhausted parse st req script st1 evs le h

/-- Claim C2, counterexample to the claim as stated: on the plain-JSON
success path the upstream body is forwarded verbatim, so when the upstream
rewrites the id (here the request has id 1 and the upstream answers with
id 2) the terminal response written downstream carries the upstream's id,
not the request's. -/
theorem c2_counterexample :
    (proxyRequest parse0 (initState "K" none) { id := RpcId.num 1, method := "tools/call" }
        (fun _ => Outcome.http
          { status := 200,
            body := { id? := some (RpcId.num 2), result := some (ResultVal.truthyVal 0) } })).2
      = [Ev.post (getHeaders "K" none none) (PostKind.request "tools/call" (RpcId.num 1)),
         Ev.down { id? := some (RpcId.num 2), result := some (ResultVal.truthyVal 0) }] ∧
    some (RpcId.num 2) ≠ some (RpcId.num 1) := by
  decide

theorem exhaustedReply_id (st2 : ProxyState) (req : Request) (le : Option String) :
    (exhaustedReply st2 req le).id? = some req.id := by
  unfold exhaustedReply
  split
  · split <;> rfl
  · split
    · split <;> rfl
    · rfl

/-- Claim C2 as amended: every response the proxy itself constructs carries
the originating request's id — the retry-exhaustion reply (cache substitution
with rewritten id, empty-tools fallback, and synthesized errors) and the SSE
no-match error alike; upstream success payloads, however, are forwarded
verbatim with whatever id the upstream sent. -/
theorem c2_synthesized_id_passthrough :
    (∀ (st2 : ProxyState) (req : Request) (le : Option String),
      (exhaustedReply st2 req le).id? = some req.id) ∧
    (∀ (parse : List Char → Option JsonRpcMsg) (st : ProxyState) (req : Request)
        (script : Nat → Outcome) (st1 : ProxyState) (evs : List Ev) (le : Option String),
      runAttempts parse req script (MAX_RETRIES + 1) 0 none (rememberInit st req)
        = (st1, evs, .exhausted le) →
      ∃ m, proxyRequest parse st req script = (markApiDown st1, evs ++ [Ev.down m]) ∧
        m.id? = some req.id) ∧
    (∀ (parse : List Char → Option JsonRpcMsg) (st : ProxyState)
        (chunks : List (List Char)) (reqId : RpcId) (method : String),
      (sseLines chunks).any (lineMatch parse reqId) = false →
      (handleSSE parse st (some chunks) reqId method).2
        = ((sseLines chunks).filterMap (sseDataMsg parse)).map Ev.down
          ++ [Ev.down (errResp reqId "No valid response received from SSE stream")] ∧
      (errResp reqId "No valid response received from SSE stream").id? = some reqId) := by
  refine ⟨?_, ?_, ?_⟩
  · intro st2 req le
    exact exhaustedReply_id st2 req le
  · intro parse st req script st1 evs le h
    exact ⟨exhaustedReply (markApiDown st1) req le,
      proxyRequest_exhausted parse st req script st1 evs le h,
      exhaustedReply_id (markApiDown st1) req le⟩
  · intro parse st chunks reqId method hany
    constructor
    · rw [handleSSE_some, hany]
      simp
    · rfl

/-- Claim C3, counterexample to the claim as stated: a reachable quiescent
state violates `healthy = false ⇒ sessionId = null`.  After a request
exhausts retries (marking the API down and clearing the session), a second
request receives a failed (403) upstream response that carries an
`Mcp-Session-Id` header: the header is captured into `sessionId`, the proxy
stays down, and `markApiDown` (already down) does not re-clear it. -/
theorem c3_counterexample :
    Reachable (run parse0 (initState "K" none)
      [PAction.request { id := RpcId.num 1, method := "tools/call" }
        (fun _ => Outcome.thrown { isTypeError := false, isError := true, message := "boom" }),
       PAction.request { id := RpcId.num 2, method := "tools/call" }
        (fun _ => Outcome.http { status := 403, sessionHeader := some "S" })]).1 ∧
    (run parse0 (initState "K" none)
      [PAction.request { id := RpcId.num 1, method := "tools/call" }
        (fun _ => Outcome.thrown { isTypeError := false, isError := true, message := "boom" }),
       PAction.request { id := RpcId.num 2, method := "tools/call" }
        (fun _ => Outcome.http { status := 403, sessionHeader := some "S" })]).1.apiHealthy
      = false ∧
    (run parse0 (initState "K" none)
      [PAction.request { id := RpcId.num 1, method := "tools/call" }
        (fun _ => Outcome.thrown { isTypeError := false, isError := true, message := "boom" }),
       PAction.request { id := RpcId.num 2, method := "tools/call" }
        (fun _ => Outcome.http { status := 403, sessionHeader := some "S" })]).1.sessionId
      = some "S" :=
  ⟨⟨parse0, "K", none,
    [PAction.request { id := RpcId.num 1, method := "tools/call" }
      (fun _ => Outcome.thrown { isTypeError := false, isError := true, message := "boom" }),
     PAction.request { id := RpcId.num 2, method := "tools/call" }
      (fun _ => Outcome.http { status := 403, sessionHeader := some "S" })], rfl⟩,
   by decide, by decide⟩

/-- Claim C3 as amended: in every reachable quiescent state at most one
health prober timer is active, and an active prober implies the API is
marked unhealthy.  (The third conjunct of the original claim,
`healthy = false ⇒ sessionId = null`, fails on the code: a failed upstream
response carrying a session header while down re-populates `sessionId` —
see the counterexample.) -/
theorem c3_prober_invariants (st : ProxyState) (h : Reachable st) :
    st.healthTimers ≤ 1 ∧ (st.healthTimers ≠ 0 → st.apiHealthy = false) :=
  timerInv_reachable st h

theorem processSSELine_st_cases (parse : List Char → Option JsonRpcMsg) (reqId : RpcId)
    (method : String) (acc : SSEAcc) (line : List Char) :
    (processSSELine parse reqId method acc line).st
      = match sseDataMsg parse line with
        | none => acc.st
        | some p =>
            if p.id? = some reqId ∧
                ((method = "tools/list" ∨ method = "initialize") ∧
                  truthyResult p.result = true) then
              { acc.st with responseCache := mapSet acc.st.responseCache method p }
            else acc.st := by
  by_cases hpre : dataPrefix.isPrefixOf line = true
  · by_cases hdat : trimChars (line.drop 6) ≠ [] ∧ trimChars (line.drop 6) ≠ doneLit
    · cases h : parse (trimChars (line.drop 6)) with
      | some p =>
          by_cases hid : p.id? = some reqId
          · by_cases hca : (method = "tools/list" ∨ method = "initialize") ∧
                truthyResult p.result = true
            · simp [processSSELine, sseDataMsg, hpre, hdat, h, hid, hca]
            · simp [processSSELine, sseDataMsg, hpre, hdat, h, hid, hca]
          · simp [processSSELine, sseDataMsg, hpre, hdat, h, hid]
      | none => simp [processSSELine, sseDataMsg, hpre, hdat, h]
    · simp [processSSELine, sseDataMsg, hpre, hdat]
  · simp [processSSELine, sseDataMsg, hpre]

theorem sseCacheWrite_append (reqId : RpcId) (a b : List JsonRpcMsg) :
    sseCacheWrite reqId (a ++ b)
      = match sseCacheWrite reqId b with
        | some q => some q
        | none => sseCacheWrite reqId a := by
  induction a with
  | nil =>
      cases h : sseCacheWrite reqId b <;> simp [h, sseCacheWrite]
  | cons p rest ih =>
      rw [List.cons_append]
      simp only [sseCacheWrite]
      rw [ih]
      cases hb : sseCacheWrite reqId b <;> cases hr : sseCacheWrite reqId rest <;> simp [hb, hr]

theorem cache_after_lines (parse : List Char → Option JsonRpcMsg) (reqId : RpcId)
    (method : String)
    (hmeth : method = "tools/list" ∨ method = "initialize") (lines : List (List Char)) :
    ∀ acc : SSEAcc,
      mapGet (lines.foldl (processSSELine parse reqId method) acc).st.responseCache method
        = match sseCacheWrite reqId (lines.filterMap (sseDataMsg parse)) with
          | some p => some p
          | none => mapGet acc.st.responseCache method := by
  induction lines with
  | nil => intro acc; rfl
  | cons l ls ih =>
      intro acc
      rw [List.foldl_cons, ih (processSSELine parse reqId method acc l)]
      cases h : sseDataMsg parse l with
      | none =>
          have hst : (processSSELine parse reqId method acc l).st = acc.st := by
            rw [processSSELine_st_cases, h]
          rw [hst, List.filterMap_cons_none h]
      | some p =>
          rw [List.filterMap_cons_some h]
          by_cases hcond : (decide (p.id? = some reqId) && truthyResult p.result) = true
          · have hid : p.id? = some reqId := by
              have := (Bool.and_eq_true _ _).mp hcond
              exact of_decide_eq_true this.1
            have htr : truthyResult p.result = true := ((Bool.and_eq_true _ _).mp hcond).2
            have hst : (processSSELine parse reqId method acc l).st
                = { acc.st with
                    responseCache := mapSet acc.st.responseCache method p } := by
              rw [processSSELine_st_cases, h]
              try dsimp only
              rw [if_pos ⟨hid, hmeth, htr⟩]
            rw [hst]
            simp only [sseCacheWrite, hcond, if_pos]
            cases hw : sseCacheWrite reqId (ls.filterMap (sseDataMsg parse)) with
            | some q => rfl
            | none =>
                try dsimp only
                rw [mapGet_mapSet, if_pos rfl]
          · have hnot : ¬ (p.id? = some reqId ∧
                ((method = "tools/list" ∨ method = "initialize") ∧
                  truthyResult p.result = true)) := by
              intro hcon
              exact hcond (by
                rw [Bool.and_eq_true]
                exact ⟨decide_eq_true hcon.1, hcon.2.2⟩)
            have hst : (processSSELine parse reqId method acc l).st = acc.st := by
              rw [processSSELine_st_cases, h]
              try dsimp only
              rw [if_neg hnot]
            rw [hst]
            simp only [sseCacheWrite, hcond, if_neg]
            cases hw : sseCacheWrite reqId (ls.filterMap (sseDataMsg parse)) with
            | some q => rfl
            | none => simp

theorem cache_after_chunks (parse : List Char → Option JsonRpcMsg) (reqId : RpcId)
    (method : String)
    (hmeth : method = "tools/list" ∨ method = "initialize") (chunks : List (List Char)) :
    ∀ acc : SSEAcc, '\n' ∉ acc.buf →
      mapGet (chunks.foldl (processSSEChunk parse reqId method) acc).st.responseCache method
        = match sseCacheWrite reqId
            (((splitOnNl (acc.buf ++ chunks.flatten)).dropLast).filterMap
              (sseDataMsg parse)) with
          | some p => some p
          | none => mapGet acc.st.responseCache method := by
  induction chunks with
  | nil =>
      intro acc hbuf
      rw [List.flatten_nil, List.append_nil, splitOnNl_of_no_nl acc.buf hbuf]
      rfl
  | cons ch chs ih =>
      intro acc hbuf
      have hsplit := splitOnNl_append (acc.buf ++ ch) chs.flatten
      have hnonil : splitOnNl ((splitOnNl (acc.buf ++ ch)).getLastD [] ++ chs.flatten) ≠ [] :=
        splitOnNl_ne_nil _
      set acc1 := processSSEChunk parse reqId method acc ch with hacc1
      have hbuf1 : acc1.buf = (splitOnNl (acc.buf ++ ch)).getLastD [] := by
        rw [hacc1]
        unfold processSSEChunk
        rw [foldl_lines_buf]
      have hnl1 : '\n' ∉ acc1.buf := by rw [hbuf1]; exact splitOnNl_no_nl _
      have h1 : mapGet acc1.st.responseCache method
          = match sseCacheWrite reqId
              (((splitOnNl (acc.buf ++ ch)).dropLast).filterMap (sseDataMsg parse)) with
            | some p => some p
            | none => mapGet acc.st.responseCache method := by
        rw [hacc1]
        unfold processSSEChunk
        try dsimp only
        exact cache_after_lines parse reqId method hmeth _
          { acc with buf := (splitOnNl (acc.buf ++ ch)).getLastD [] }
      have hIH := ih acc1 hnl1
      rw [hbuf1] at hIH
      have hlines : (splitOnNl (acc.buf ++ (ch :: chs).flatten)).dropLast
          = (splitOnNl (acc.buf ++ ch)).dropLast
            ++ (splitOnNl ((splitOnNl (acc.buf ++ ch)).getLastD [] ++ chs.flatten)).dropLast := by
        rw [List.flatten_cons, ← List.append_assoc, hsplit,
          List.dropLast_append_of_ne_nil _ hnonil]
      rw [List.foldl_cons, ← hacc1, hIH, h1, hlines, List.filterMap_append, sseCacheWrite_append]
      cases hw2 : sseCacheWrite reqId
          ((((splitOnNl ((splitOnNl (acc.buf ++ ch)).getLastD [] ++ chs.flatten)).dropLast)).filterMap
            (sseDataMsg parse)) <;>
        cases hw1 : sseCacheWrite reqId
            (((splitOnNl (acc.buf ++ ch)).dropLast).filterMap (sseDataMsg parse)) <;>
          simp [hw1, hw2]

theorem cache_after_handleSSE (parse : List Char → Option JsonRpcMsg) (st : ProxyState)
    (chunks : List (List Char)) (reqId : RpcId) (method : String)
    (hmeth : method = "tools/list" ∨ method = "initialize") :
    mapGet (handleSSE parse st (some chunks) reqId method).1.responseCache method
      = match sseCacheWrite reqId ((sseLines chunks).filterMap (sseDataMsg parse)) with
        | some p => some p
        | none => mapGet st.responseCache method := by
  have h := cache_after_chunks parse reqId method hmeth chunks
    { st := st, evs := [], sent := false, buf := [] } (by simp)
  simp only [List.nil_append] at h
  simp only [handleSSE]
  split <;> exact h

/-- Claim C4, counterexample to the claim as stated: a successful plain-JSON
upstream response for `tools/list` whose payload carries `result` with a
falsy value (`null`, `false`, `0`, `""`) does not overwrite the cache — the
source guards insertion with the JS truthiness of `result.result`, not with
presence. -/
theorem c4_counterexample :
    (some (ResultVal.falsyVal 0) : Option ResultVal).isSome = true ∧
    httpOk 200 = true ∧
    mapGet (proxyRequest parse0 (initState "K" none)
        { id := RpcId.num 1, method := "tools/list" }
        (fun _ => Outcome.http
          { status := 200,
            body := { id? := some (RpcId.num 1),
                      result := some (ResultVal.falsyVal 0) } })).1.responseCache
      "tools/list" = none := by
  decide

/-- Claim C4 as amended: the cache entry for a method `m` is overwritten
exactly when a successful upstream response for `m ∈ \x7binitialize, tools/list\x7d`
whose payload carries a truthy `result` arrives, on both delivery paths:
(i) in every reachable state every cache entry is keyed by `initialize` or
`tools/list` and holds a truthy result; (ii) no step ever evicts a present
entry (in particular a failed upstream never does); (iii) a successful
plain-JSON response for such a method with truthy result overwrites the
entry; (iv) on the SSE delivery path the entry ends up holding the last
forwarded object whose id matches the request and whose result is truthy,
whenever one arrives. -/
theorem c4_cache_discipline :
    (∀ st : ProxyState, Reachable st → CacheInv st) ∧
    (∀ (parse : List Char → Option JsonRpcMsg) (st : ProxyState) (a : PAction) (k : String),
      (mapGet st.responseCache k).isSome = true →
      (mapGet (step parse st a).1.responseCache k).isSome = true) ∧
    (∀ (parse : List Char → Option JsonRpcMsg) (st : ProxyState) (req : Request)
        (script : Nat → Outcome) (o : HttpOutcome),
      script 0 = Outcome.http o → httpOk o.status = true →
      isSSEContentType o.contentType = false →
      (req.method = "initialize" ∨ req.method = "tools/list") →
      truthyResult o.body.result = true →
      mapGet (proxyRequest parse st req script).1.responseCache req.method = some o.body) ∧
    (∀ (parse : List Char → Option JsonRpcMsg) (st : ProxyState) (req : Request)
        (script : Nat → Outcome) (o : HttpOutcome) (chunks : List (List Char))
        (p : JsonRpcMsg),
      script 0 = Outcome.http o → httpOk o.status = true →
      isSSEContentType o.contentType = true →
      o.sseBody = some chunks →
      (req.method = "initialize" ∨ req.method = "tools/list") →
      sseCacheWrite req.id ((sseLines chunks).filterMap (sseDataMsg parse)) = some p →
      mapGet (proxyRequest parse st req script).1.responseCache req.method = some p) := by
  refine ⟨?_, ?_, ?_, ?_⟩
  · exact cacheInv_reachable
  · intro parse st a k h
    exact (cacheOk_step parse st a).2 k h
  · intro parse st req script o hscr hok hsse hmeth htruthy
    have hdel : deliver parse ((markRecovered (sessionCapture (rememberInit st req) o)
          req.method).1) req o
        = ({ (markRecovered (sessionCapture (rememberInit st req) o) req.method).1 with
              responseCache := mapSet ((markRecovered (sessionCapture (rememberInit st req) o)
                req.method).1).responseCache req.method o.body },
           [Ev.down o.body]) := by
      unfold deliver
      rw [if_neg (by rw [hsse]; exact Bool.false_ne_true), if_pos ⟨hmeth, htruthy⟩]
    have hrun : runAttempts parse req script (MAX_RETRIES + 1) 0 none (rememberInit st req)
        = ((deliver parse ((markRecovered (sessionCapture (rememberInit st req) o)
              req.method).1) req o).1,
           (if (0 : Nat) > 0 then [Ev.sleep (RETRY_DELAY_MS * 2 ^ (0 - 1))] else [])
             ++ [Ev.post (getHeaders (rememberInit st req).apiKey (rememberInit st req).spaceId
                   (rememberInit st req).sessionId) (PostKind.request req.method req.id)]
             ++ (markRecovered (sessionCapture (rememberInit st req) o) req.method).2
             ++ (deliver parse ((markRecovered (sessionCapture (rememberInit st req) o)
                   req.method).1) req o).2,
           .sent) := by
      simp only [runAttempts, hscr]
      rw [if_pos hok]
    rw [proxyRequest_sent parse st req script _ _ hrun]
    rw [hdel]
    try dsimp only
    rw [mapGet_mapSet, if_pos rfl]
  · intro parse st req script o chunks p hscr hok hsse hbody hmeth hwrite
    have hrun : runAttempts parse req script (MAX_RETRIES + 1) 0 none (rememberInit st req)
        = ((deliver parse ((markRecovered (sessionCapture (rememberInit st req) o)
              req.method).1) req o).1,
           (if (0 : Nat) > 0 then [Ev.sleep (RETRY_DELAY_MS * 2 ^ (0 - 1))] else [])
             ++ [Ev.post (getHeaders (rememberInit st req).apiKey (rememberInit st req).spaceId
                   (rememberInit st req).sessionId) (PostKind.request req.method req.id)]
             ++ (markRecovered (sessionCapture (rememberInit st req) o) req.method).2
             ++ (deliver parse ((markRecovered (sessionCapture (rememberInit st req) o)
                   req.method).1) req o).2,
           .sent) := by
      simp only [runAttempts, hscr]
      rw [if_pos hok]
    rw [proxyRequest_sent parse st req script _ _ hrun]
    unfold deliver
    rw [if_pos hsse, hbody]
    rw [cache_after_handleSSE parse _ chunks req.id req.method (Or.symm hmeth), hwrite]

/-- Witness for C1: with an empty cache, the exhaustion reply of a
`tools/list` request is the empty-tools result and carries no error. -/
theorem c1_tools_list_exhaustion_never_error_witness :
    (exhaustedReply (initState "K" none)
        { id := RpcId.num 42, method := "tools/list" } (some "boom")).error = none ∧
    (exhaustedReply (initState "K" none)
        { id := RpcId.num 42, method := "tools/list" } (some "boom")).result
      = some ResultVal.emptyTools :=
  (c1_tools_list_exhaustion_never_error (initState "K" none)
    { id := RpcId.num 42, method := "tools/list" } (some "boom") rfl).2.1 (by decide)

/-- Witness for C2: a request whose single attempt throws a non-transient
error is answered by a terminal message carrying the request's own id. -/
theorem c2_synthesized_id_passthrough_witness :
    ∃ m, proxyRequest parse0 (initState "K" none)
        { id := RpcId.num 7, method := "tools/call" }
        (fun _ => Outcome.thrown { isTypeError := false, isError := true, message := "boom" })
      = (markApiDown (initState "K" none),
         [Ev.post (getHeaders "K" none none) (PostKind.request "tools/call" (RpcId.num 7))]
           ++ [Ev.down m]) ∧
      m.id? = some (RpcId.num 7) :=
  c2_synthesized_id_passthrough.2.1 parse0 (initState "K" none)
    { id := RpcId.num 7, method := "tools/call" }
    (fun _ => Outcome.thrown { isTypeError := false, isError := true, message := "boom" })
    (initState "K" none)
    [Ev.post (getHeaders "K" none none) (PostKind.request "tools/call" (RpcId.num 7))]
    (some "boom") (by decide)

/-- Witness for C3: the invariant instantiated at a reachable DOWN state. -/
theorem c3_prober_invariants_witness :
    (run parse0 (initState "K" none)
      [PAction.request { id := RpcId.num 1, method := "tools/call" }
        (fun _ => Outcome.thrown
          { isTypeError := false, isError := true, message := "boom" })]).1.healthTimers ≤ 1 ∧
    ((run parse0 (initState "K" none)
      [PAction.request { id := RpcId.num 1, method := "tools/call" }
        (fun _ => Outcome.thrown
          { isTypeError := false, isError := true, message := "boom" })]).1.healthTimers ≠ 0 →
      (run parse0 (initState "K" none)
        [PAction.request { id := RpcId.num 1, method := "tools/call" }
          (fun _ => Outcome.thrown
            { isTypeError := false, isError := true, message := "boom" })]).1.apiHealthy
        = false) :=
  c3_prober_invariants _
    ⟨parse0, "K", none,
     [PAction.request { id := RpcId.num 1, method := "tools/call" }
       (fun _ => Outcome.thrown { isTypeError := false, isError := true, message := "boom" })],
     rfl⟩

/-- Witness for C4: a successful JSON `tools/list` response with truthy
result overwrites the cache entry, and so does an SSE-delivered matching
object with truthy result. -/
theorem c4_cache_discipline_witness :
    mapGet (proxyRequest parse0 (initState "K" none)
        { id := RpcId.num 1, method := "tools/list" }
        (fun _ => Outcome.http
          { status := 200,
            body := { id? := some (RpcId.num 1),
                      result := some (ResultVal.truthyVal 3) } })).1.responseCache
      "tools/list"
      = some { id? := some (RpcId.num 1), result := some (ResultVal.truthyVal 3) } ∧
    mapGet (proxyRequest
        (fun cs => if cs = "X".toList then
          some { id? := some (RpcId.num 1), result := some (ResultVal.truthyVal 9) }
         else none)
        (initState "K" none)
        { id := RpcId.num 1, method := "tools/list" }
        (fun _ => Outcome.http
          { status := 200, contentType := "text/event-stream",
            sseBody := some ["data: X\n".toList] })).1.responseCache
      "tools/list"
      = some { id? := some (RpcId.num 1), result := some (ResultVal.truthyVal 9) } :=
  ⟨c4_cache_discipline.2.2.1 parse0 (initState "K" none)
    { id := RpcId.num 1, method := "tools/list" }
    (fun _ => Outcome.http
      { status := 200,
        body := { id? := some (RpcId.num 1), result := some (ResultVal.truthyVal 3) } })
    { status := 200,
      body := { id? := some (RpcId.num 1), result := some (ResultVal.truthyVal 3) } }
    rfl (by decide) (by decide) (Or.inr rfl) (by decide),
   c4_cache_discipline.2.2.2
    (fun cs => if cs = "X".toList then
      some { id? := some (RpcId.num 1), result := some (ResultVal.truthyVal 9) }
     else none)
    (initState "K" none)
    { id := RpcId.num 1, method := "tools/list" }
    (fun _ => Outcome.http
      { status := 200, contentType := "text/event-stream",
        sseBody := some ["data: X\n".toList] })
    { status := 200, contentType := "text/event-stream",
      sseBody := some ["data: X\n".toList] }
    ["data: X\n".toList]
    { id? := some (RpcId.num 1), result := some (ResultVal.truthyVal 9) }
    rfl (by decide) (by decide) rfl (Or.inr rfl) (by decide)⟩

/-- Witness for C5: attempt 1 of a request receives HTTP 400, the re-mint
succeeds, and the loop continues at attempt 2 with the re-mint POSTs traced
in between. -/
theorem c5_stale_session_remint_witness :
    runAttempts parse0 { id := RpcId.num 5, method := "tools/call" }
        (fun _ => Outcome.http { status := 400 }) (1 + 1) 1 none (initState "K" none)
      = ((runAttempts parse0 { id := RpcId.num 5, method := "tools/call" }
            (fun _ => Outcome.http { status := 400 }) 1 2
            (some ("HTTP " ++ toString (400 : Nat))) { apiKey := "K", initialized := true }).1,
         (if 0 < 1 then [Ev.sleep (RETRY_DELAY_MS * 2 ^ (1 - 1))] else [])
           ++ [Ev.post (getHeaders "K" none none) (PostKind.request "tools/call" (RpcId.num 5))]
           ++ [Ev.post (getHeaders "K" none none) PostKind.reinitInit,
               Ev.post (getHeaders "K" none none) PostKind.notifInitialized]
           ++ (runAttempts parse0 { id := RpcId.num 5, method := "tools/call" }
                 (fun _ => Outcome.http { status := 400 }) 1 2
                 (some ("HTTP " ++ toString (400 : Nat)))
                 { apiKey := "K", initialized := true }).2.1,
         (runAttempts parse0 { id := RpcId.num 5, method := "tools/call" }
           (fun _ => Outcome.http { status := 400 }) 1 2
           (some ("HTTP " ++ toString (400 : Nat))) { apiKey := "K", initialized := true }).2.2) :=
  (c5_stale_session_remint parse0 { id := RpcId.num 5, method := "tools/call" }
    (fun _ => Outcome.http { status := 400 }) 1 1 none (initState "K" none)
    { status := 400 } rfl (Or.inl rfl) (by decide)).1
    { apiKey := "K", initialized := true }
    [Ev.post (getHeaders "K" none none) PostKind.reinitInit,
     Ev.post (getHeaders "K" none none) PostKind.notifInitialized]
    (by decide)

/-- Witness for C8: the session header is looked up exactly, and a concrete
forwarded notification's POST headers come from getHeaders. -/
theorem c8_header_completeness_witness :
    lookupH (getHeaders "K" (some "SP") (some "T")) "Mcp-Session-Id" = some "T" ∧
    ∃ sid, [("Authorization", "Bearer K"), ("Current-Space-Id", "SP"),
            ("Content-Type", "application/json"),
            ("Accept", "application/json, text/event-stream")]
        = getHeaders "K" (some "SP") sid :=
  ⟨(c8_header_completeness.1 "K" (some "SP") (some "T")).2.2.2.2,
   c8_header_completeness.2 parse0 "K" (some "SP") [PAction.notif "ping"]
     [("Authorization", "Bearer K"), ("Current-Space-Id", "SP"),
      ("Content-Type", "application/json"),
      ("Accept", "application/json, text/event-stream")]
     (PostKind.forwardNotif "ping") (by decide)⟩

/-- Witness for C9: a prober tick whose re-mint succeeds stops the prober,
marks the API healthy and emits exactly one tools/list_changed object. -/
theorem c9_recovery_transition_witness :
    proberTick { apiKey := "K", apiHealthy := false, healthTimers := 1 } {}
      = ({ apiKey := "K", initialized := true },
         [Ev.post (getHeaders "K" none none) PostKind.reinitInit,
          Ev.post (getHeaders "K" none none) PostKind.notifInitialized]
           ++ [Ev.down ntcMsg]) :=
  c9_recovery_transition.2 { apiKey := "K", apiHealthy := false, healthTimers := 1 } {}
    { apiKey := "K", initialized := true, apiHealthy := false, healthTimers := 1 }
    [Ev.post (getHeaders "K" none none) PostKind.reinitInit,
     Ev.post (getHeaders "K" none none) PostKind.notifInitialized]
    (by decide)

/-- Witness for C10: a 404 on the final attempt ends the loop with the plain
HTTP failure and no re-mint POSTs. -/
theorem c10_final_attempt_no_remint_witness :
    runAttempts parse0 { id := RpcId.num 9, method := "tools/call" }
        (fun _ => Outcome.http { status := 404, statusText := "Not Found" })
        1 MAX_RETRIES none (initState "K" none)
      = (initState "K" none,
         [Ev.sleep (RETRY_DELAY_MS * 2 ^ (MAX_RETRIES - 1)),
          Ev.post (getHeaders "K" none none) (PostKind.request "tools/call" (RpcId.num 9))],
         .exhausted (some ("HTTP " ++ toString (404 : Nat) ++ ": " ++ "Not Found"))) :=
  (c10_final_attempt_no_remint parse0 { id := RpcId.num 9, method := "tools/call" }
    (fun _ => Outcome.http { status := 404, statusText := "Not Found" })
    none (initState "K" none) { status := 404, statusText := "Not Found" }
    rfl (Or.inr rfl)).1
